import Mathlib

/-!
Shallow embedding of the tristero backend's adaptive knowledge-graph engine
(src/backend/app/models/database.py, src/backend/app/services/graph.py,
src/backend/app/services/entities.py) and verification of its specification.

Modelling conventions:
* SQLite tables become Lean lists of rows, in rowid (insertion) order; a
  `SELECT ... fetchone()` without ORDER BY returns the first matching row.
* Python/SQL floats become exact rationals (ℚ); all weight arithmetic in the
  source is add/mul/min/max/compare, which ℚ models faithfully.
* `uuid.uuid4()` is modelled by a fresh-id counter `next_id` in the store:
  the only property the source relies on is freshness of generated ids.
* `datetime.utcnow()` timestamps are opaque `Nat` values passed in by callers.
* JSON metadata blobs are opaque strings; adaptation-event `details` dicts are
  association lists of string pairs (the only part any claim inspects).
* External collaborators (GLiNER extraction, Chroma similarity, Ollama LLM)
  are out of scope per the spec; their outputs enter as explicit arguments
  (extracted entities, similarity scores and rankings, availability flag,
  generated text).
* Python's `str.lower` and SQLite's `LOWER` agree on ASCII; both are modelled
  by `sqlLower`, which maps `Char.toLower` over the string's characters.
-/

namespace Tristero

/-- ASCII lowercasing, modelling both SQLite `LOWER(...)` and Python
`str.lower()` on the ASCII strings the engine handles. -/
def sqlLower (s : String) : String := String.mk (s.data.map Char.toLower)

/-- entities.py `normalize_entity_text`: lowercase, then collapse whitespace
(Python `" ".join(text.lower().split())`). -/
def normalize_entity_text (text : String) : String :=
  String.intercalate " " (((sqlLower text).split Char.isWhitespace).filter (fun w => w ≠ ""))

/-- A row of the `nodes` table (database.py `_init_schema`). -/
structure DbNode where
  id : Nat
  name : String
  entity_type : String
  content : Option String
  metadata : String
  created_at : Nat
  updated_at : Nat
  access_count : Nat
deriving Repr, DecidableEq

/-- A row of the `edges` table. -/
structure DbEdge where
  id : Nat
  source_id : Nat
  target_id : Nat
  relation_type : String
  weight : ℚ
  metadata : String
  created_at : Nat
  last_traversed : Option Nat
  traversal_count : Nat
deriving Repr, DecidableEq

/-- A row of the `schema_types` table. -/
structure SchemaTypeRow where
  name : String
  count : Nat
  is_seed : Bool
  evolved_from : Option String
  created_at : Nat
deriving Repr, DecidableEq

/-- A row of the `adaptation_events` table. -/
structure AdaptationRow where
  event_type : String
  description : String
  timestamp : Nat
  details : List (String × String)
deriving Repr, DecidableEq

/-- The single `metrics` row (id = 1). -/
structure Metrics where
  total_queries : Nat
  llm_calls : Nat
  total_latency_ms : ℚ
deriving Repr, DecidableEq

/-- The SQLite store of database.py, plus a fresh-id counter modelling
`uuid.uuid4()`. -/
structure Database where
  nodes : List DbNode
  edges : List DbEdge
  schema_types : List SchemaTypeRow
  adaptation_events : List AdaptationRow
  metrics : Metrics
  next_id : Nat
deriving Repr, DecidableEq

/-- The four bootstrap schema types inserted by `_init_schema`. -/
def seed_types : List String := ["note", "person", "place", "thing"]

/-- database.py `_init_schema` on a fresh database file: empty tables, a
zeroed metrics row, and the four seed schema types with count 0. -/
def init_db (now : Nat) : Database :=
  { nodes := []
    edges := []
    schema_types := seed_types.map (fun t =>
      { name := t, count := 0, is_seed := true, evolved_from := none, created_at := now })
    adaptation_events := []
    metrics := { total_queries := 0, llm_calls := 0, total_latency_ms := 0 }
    next_id := 0 }

/-- The schema_types upsert inside `create_node`:
`INSERT INTO schema_types (name, count, is_seed) VALUES (?, 1, 0)
 ON CONFLICT(name) DO UPDATE SET count = count + 1`. -/
def upsert_schema_count : List SchemaTypeRow → String → Nat → List SchemaTypeRow
  | [], t, now => [{ name := t, count := 1, is_seed := false, evolved_from := none, created_at := now }]
  | r :: rs, t, now =>
    if r.name = t then { r with count := r.count + 1 } :: rs
    else r :: upsert_schema_count rs t now

/-- database.py `create_node`: insert a node row with a fresh id and zero
access count, and upsert the schema_types row for its entity type. -/
def create_node (db : Database) (name entity_type : String) (content : Option String)
    (metadata : String) (now : Nat) : DbNode × Database :=
  let node : DbNode :=
    { id := db.next_id, name := name, entity_type := entity_type, content := content
      metadata := metadata, created_at := now, updated_at := now, access_count := 0 }
  (node,
    { db with
        nodes := db.nodes ++ [node]
        schema_types := upsert_schema_count db.schema_types entity_type now
        next_id := db.next_id + 1 })

/-- database.py `get_node`. -/
def get_node (db : Database) (node_id : Nat) : Option DbNode :=
  db.nodes.find? (fun n => n.id == node_id)

/-- database.py `get_all_nodes`. -/
def get_all_nodes (db : Database) : List DbNode := db.nodes

/-- database.py `update_node_access`: `access_count = access_count + 1`,
`updated_at = now` for the addressed row. -/
def update_node_access (db : Database) (node_id : Nat) (now : Nat) : Database :=
  { db with
      nodes := db.nodes.map (fun n =>
        if n.id = node_id then { n with access_count := n.access_count + 1, updated_at := now }
        else n) }

/-- database.py `find_node_by_name`: case-insensitive exact name match
(`LOWER(name) = LOWER(?)`), optionally filtered by entity type. -/
def find_node_by_name (db : Database) (name : String) (entity_type : Option String) :
    Option DbNode :=
  match entity_type with
  | some t => db.nodes.find? (fun n => sqlLower n.name == sqlLower name && n.entity_type == t)
  | none => db.nodes.find? (fun n => sqlLower n.name == sqlLower name)

/-- database.py `create_edge`. -/
def create_edge (db : Database) (source_id target_id : Nat) (relation_type : String)
    (weight : ℚ) (metadata : String) (now : Nat) : DbEdge × Database :=
  let edge : DbEdge :=
    { id := db.next_id, source_id := source_id, target_id := target_id
      relation_type := relation_type, weight := weight, metadata := metadata
      created_at := now, last_traversed := none, traversal_count := 0 }
  (edge, { db with edges := db.edges ++ [edge], next_id := db.next_id + 1 })

/-- database.py `get_edges_for_node`: both directions. -/
def get_edges_for_node (db : Database) (node_id : Nat) : List DbEdge :=
  db.edges.filter (fun e => e.source_id == node_id || e.target_id == node_id)

/-- database.py `find_edge`: direction-agnostic lookup. -/
def find_edge (db : Database) (source_id target_id : Nat) : Option DbEdge :=
  db.edges.find? (fun e =>
    (e.source_id == source_id && e.target_id == target_id) ||
    (e.source_id == target_id && e.target_id == source_id))

/-- database.py `boost_edge`: `weight = MIN(weight + ?, 10.0)`, stamp
`last_traversed`, increment `traversal_count`. -/
def boost_edge (db : Database) (edge_id : Nat) (boost_amount : ℚ) (now : Nat) : Database :=
  { db with
      edges := db.edges.map (fun e =>
        if e.id = edge_id then
          { e with
              weight := min (e.weight + boost_amount) 10
              last_traversed := some now
              traversal_count := e.traversal_count + 1 }
        else e) }

/-- database.py `decay_edges`: `weight = MAX(weight * ?, 0.1)` on every edge. -/
def decay_edges (db : Database) (decay_factor : ℚ) : Database :=
  { db with
      edges := db.edges.map (fun e => { e with weight := max (e.weight * decay_factor) (0.1 : ℚ) }) }

/-- Stable insertion step for `sort_by` (insert after all rows the new row is
not strictly less than). -/
def ins_by (lt : α → α → Bool) (a : α) : List α → List α
  | [] => [a]
  | b :: bs => if lt a b then a :: b :: bs else b :: ins_by lt a bs

/-- A stable sort (equal keys keep first-seen order), modelling both Python's
`sorted` and SQLite's `ORDER BY`. -/
def sort_by (lt : α → α → Bool) (l : List α) : List α :=
  l.foldl (fun acc a => ins_by lt a acc) []

/-- database.py `get_schema_types`: `ORDER BY count DESC`. -/
def get_schema_types (db : Database) : List SchemaTypeRow :=
  sort_by (fun a b => b.count < a.count) db.schema_types

/-- database.py `log_adaptation`: append a row to `adaptation_events`. -/
def log_adaptation (db : Database) (event_type description : String)
    (details : List (String × String)) (now : Nat) : Database :=
  { db with
      adaptation_events := db.adaptation_events ++
        [{ event_type := event_type, description := description, timestamp := now
           details := details }] }

/-- database.py `create_schema_type`: `INSERT OR IGNORE` of a non-seed row
with count 0, then a `type_created` adaptation log entry. -/
def create_schema_type (db : Database) (name : String) (evolved_from : Option String)
    (now : Nat) : Database :=
  let db1 :=
    if name ∈ db.schema_types.map (fun r => r.name) then db
    else
      { db with
          schema_types := db.schema_types ++
            [{ name := name, count := 0, is_seed := false, evolved_from := evolved_from
               created_at := now }] }
  log_adaptation db1 "type_created" ("New entity type " ++ name ++ " created")
    [("type_name", name)] now

/-- database.py `record_query`: bump query counters and cumulative latency. -/
def record_query (db : Database) (latency_ms : ℚ) (used_llm : Bool) : Database :=
  { db with
      metrics :=
        { total_queries := db.metrics.total_queries + 1
          llm_calls := db.metrics.llm_calls + (if used_llm then 1 else 0)
          total_latency_ms := db.metrics.total_latency_ms + latency_ms } }

/-- database.py `clear_all`: delete edges, nodes and the adaptation log, zero
seed schema-type counts, delete non-seed schema types, zero metrics. -/
def clear_all (db : Database) : Database :=
  { db with
      nodes := []
      edges := []
      adaptation_events := []
      schema_types :=
        ((db.schema_types.map (fun r => if r.is_seed then { r with count := 0 } else r)).filter
          (fun r => r.is_seed))
      metrics := { total_queries := 0, llm_calls := 0, total_latency_ms := 0 } }

/-- schema.py `ExtractedEntity` (GLiNER span): surface text, label, character
offsets and confidence score. `end` is a Lean keyword, hence `end_`. -/
structure ExtractedEntity where
  text : String
  label : String
  start : Nat
  end_ : Nat
  score : ℚ
deriving Repr, DecidableEq

/-- The sort key of entities.py `merge_overlapping`:
`sorted(entities, key=lambda e: (e.start, -e.score))` — start ascending,
score descending, stable on ties. -/
def span_lt (a b : ExtractedEntity) : Bool :=
  a.start < b.start || (a.start == b.start && decide (b.score < a.score))

/-- The left-to-right sweep of entities.py `merge_overlapping`: a candidate
overlapping the current span (start strictly below current end) replaces it
exactly when its score is strictly higher; otherwise the current span is
emitted and the candidate becomes current. -/
def merge_sweep (current : ExtractedEntity) : List ExtractedEntity → List ExtractedEntity
  | [] => [current]
  | ent :: rest =>
    if ent.start < current.end_ then
      if current.score < ent.score then merge_sweep ent rest else merge_sweep current rest
    else current :: merge_sweep ent rest

/-- entities.py `merge_overlapping`. -/
def merge_overlapping (entities : List ExtractedEntity) : List ExtractedEntity :=
  match sort_by span_lt entities with
  | [] => []
  | current :: rest => merge_sweep current rest

/-- graph.py `_find_or_create_entity`'s fixed label-to-type table; unmapped
labels default to "thing". -/
def type_mapping (label : String) : String :=
  if label = "person" then "person"
  else if label = "organization" then "thing"
  else if label = "location" then "place"
  else if label = "concept" then "concept"
  else if label = "project" then "project"
  else if label = "technology" then "concept"
  else if label = "date" then "thing"
  else if label = "event" then "thing"
  else "thing"

/-- A Python `collections.Counter` with string keys: association list in key
insertion order. Missing keys read as 0. -/
def counter_get (tc : List (String × Nat)) (t : String) : Nat :=
  match tc.find? (fun p => p.1 == t) with
  | some p => p.2
  | none => 0

/-- `Counter` update `tc[t] += c` (a missing key is created). -/
def counter_add : List (String × Nat) → String → Nat → List (String × Nat)
  | [], t, c => [(t, c)]
  | p :: ps, t, c => if p.1 = t then (p.1, p.2 + c) :: ps else p :: counter_add ps t c

/-- The distinct values of a list in first-occurrence order (a Python dict's
key iteration order). -/
def counter_keys : List String → List String
  | [] => []
  | t :: rest => t :: (counter_keys rest).filter (fun s => s ≠ t)

/-- `collections.Counter(l)` built from a list: each distinct value paired
with its multiplicity, in first-occurrence order. -/
def counter_of (l : List String) : List (String × Nat) :=
  (counter_keys l).map (fun t => (t, l.count t))

/-- graph.py `GraphService` state owned by the engine: the store plus the
in-memory per-type usage counters (`self._type_counts`). -/
structure GraphService where
  db : Database
  type_counts : List (String × Nat)
deriving Repr, DecidableEq

/-- graph.py `_find_or_create_entity`: normalize the surface text, look the
node up case-insensitively; on a hit bump its access count and reuse it,
otherwise create a node typed via `type_mapping` (keeping the raw surface
text as its name) and bump the in-memory type counter. -/
def find_or_create_entity (db : Database) (tc : List (String × Nat))
    (ent : ExtractedEntity) (now : Nat) : DbNode × Database × List (String × Nat) :=
  let normalized := normalize_entity_text ent.text
  match find_node_by_name db normalized none with
  | some existing => (existing, update_node_access db existing.id now, tc)
  | none =>
    let entity_type := type_mapping ent.label
    let nd := create_node db ent.text entity_type none "extraction" now
    (nd.1, nd.2, counter_add tc entity_type 1)

/-- The per-entity loop of graph.py `add_note`: find-or-create each extracted
entity and create a "mentions" edge from the note node, weighted by the
extraction score. -/
def process_entities (db : Database) (tc : List (String × Nat)) (note_id : Nat)
    (extracted : List ExtractedEntity) (now : Nat) :
    Database × List (String × Nat) × List DbNode × List DbEdge :=
  match extracted with
  | [] => (db, tc, [], [])
  | ent :: rest =>
    let fe := find_or_create_entity db tc ent now
    let me := create_edge fe.2.1 note_id fe.1.id "mentions" ent.score "extraction_score" now
    let pr := process_entities me.2 fe.2.2 note_id rest now
    (pr.1, pr.2.1, fe.1 :: pr.2.2.1, me.1 :: pr.2.2.2)

/-- Inner loop of graph.py `_auto_link_similar` for one left node `a` against
the remaining entities: boost an existing edge by 0.2, otherwise create a
"co_occurs" edge when the collaborator similarity exceeds 0.7. -/
def auto_link_one (sim : String → String → ℚ) (now : Nat) (a : DbNode) :
    Database → List DbNode → Database × List DbEdge
  | db, [] => (db, [])
  | db, b :: bs =>
    match find_edge db a.id b.id with
    | some e => auto_link_one sim now a (boost_edge db e.id (0.2 : ℚ) now) bs
    | none =>
      let s := sim a.name b.name
      if (0.7 : ℚ) < s then
        let ce := create_edge db a.id b.id "co_occurs" s "similarity" now
        let pr := auto_link_one sim now a ce.2 bs
        (pr.1, ce.1 :: pr.2)
      else auto_link_one sim now a db bs

/-- graph.py `_auto_link_similar`: all unordered pairs of the note's entities. -/
def auto_link_similar (sim : String → String → ℚ) (now : Nat) :
    Database → List DbNode → Database × List DbEdge
  | db, [] => (db, [])
  | db, a :: rest =>
    let pr1 := auto_link_one sim now a db rest
    let pr2 := auto_link_similar sim now pr1.1 rest
    (pr2.1, pr1.2 ++ pr2.2)

/-- graph.py `_link_to_similar_notes`: for each similar node reported by the
embedding index (id and similarity), link the new note to it with a
"similar_to" edge when the similarity exceeds 0.7 and the node is a note. -/
def link_to_similar_notes (note_id : Nat) (now : Nat) :
    Database → List (Nat × ℚ) → Database × List DbEdge
  | db, [] => (db, [])
  | db, (sid, s) :: rest =>
    if (0.7 : ℚ) < s then
      match get_node db sid with
      | some n =>
        if n.entity_type = "note" then
          let ce := create_edge db note_id sid "similar_to" s "similarity" now
          let pr := link_to_similar_notes note_id now ce.2 rest
          (pr.1, ce.1 :: pr.2)
        else link_to_similar_notes note_id now db rest
      | none => link_to_similar_notes note_id now db rest
    else link_to_similar_notes note_id now db rest

/-- The promotion loop of graph.py `_check_type_promotions`, folding over the
per-type counts; `schema_names` is the registry snapshot taken before the
loop. Threshold `TYPE_PROMOTION_THRESHOLD = 5`. -/
def promote_fold (schema_names : List String) (now : Nat) :
    Database → List (String × Nat) → Database
  | db, [] => db
  | db, (t, c) :: rest =>
    if t ∉ schema_names ∧ 5 ≤ c then
      let db1 := create_schema_type db t none now
      let db2 := log_adaptation db1 "type_promoted"
        ("Entity type " ++ t ++ " promoted to schema type") [("type", t), ("count", toString c)] now
      promote_fold schema_names now db2 rest
    else promote_fold schema_names now db rest

/-- graph.py `_check_type_promotions`: recompute per-type counts over every
node in the store; promote (and log `type_promoted`) every type absent from
the schema registry whose count reaches the threshold 5. -/
def check_type_promotions (db : Database) (now : Nat) : Database :=
  let schema_names := (get_schema_types db).map (fun s => s.name)
  let type_counts := counter_of ((get_all_nodes db).map (fun n => n.entity_type))
  promote_fold schema_names now db type_counts

/-- graph.py `_check_adaptations`: promotion scan, then global edge decay with
factor 0.995. -/
def check_adaptations (db : Database) (now : Nat) : Database :=
  decay_edges (check_type_promotions db now) (0.995 : ℚ)

/-- schema.py `Note`: the user-submitted note payload. -/
structure Note where
  content : String
  title : Option String
  tags : List String
deriving Repr, DecidableEq

/-- graph.py `add_note`: create the (never deduplicated) note node, resolve
and link the extracted entities, auto-link co-occurring entities, link to
similar notes, run the adaptation checks, and log `note_added`. External
collaborator outputs enter as arguments: `extracted` (GLiNER on the note
content), `sim` (pairwise embedding similarity), `similar` (the embedding
index's similar-notes ranking). Returns (note node, entity nodes, created
edges) and the updated service state. -/
def add_note (svc : GraphService) (note : Note) (extracted : List ExtractedEntity)
    (sim : String → String → ℚ) (similar : List (Nat × ℚ)) (now : Nat) (latency : ℚ) :
    (DbNode × List DbNode × List DbEdge) × GraphService :=
  let note_name := match note.title with
    | some t => t
    | none => note.content.take 50 ++ "..."
  let cn := create_node svc.db note_name "note" (some note.content) "tags" now
  let note_node := cn.1
  let pe := process_entities cn.2 svc.type_counts note_node.id extracted now
  let al := auto_link_similar sim now pe.1 pe.2.2.1
  let ls := link_to_similar_notes note_node.id now al.1 similar
  let db_adapted := check_adaptations ls.1 now
  let db_final := log_adaptation db_adapted "note_added"
    ("Added note " ++ note_node.name)
    [("latency_ms", toString latency), ("entity_count", toString pe.2.2.1.length)] now
  ((note_node, pe.2.2.1, pe.2.2.2 ++ al.2 ++ ls.2), { db := db_final, type_counts := pe.2.1 })

/-- One streamed `query_traversal` event of graph.py `query_streaming`,
carrying the payload fields the broadcast dict carries. The two
`edge_expansion` emissions are distinguished by payload shape: the edge
event carries `(node_id, edge_id)`, the discovery event for a newly exposed
node carries `(node_id, score)`. -/
inductive QueryEvent where
  | embedding_search (node_id : Nat) (score : ℚ)
  | edge_expansion_edge (node_id : Nat) (edge_id : Nat)
  | edge_expansion_node (node_id : Nat) (score : ℚ)
  | entity_match (node_id : Nat) (score : ℚ)
  | llm_thinking
  | complete
deriving Repr, DecidableEq

/-- The evolving traversal state shared by the five query phases: the store,
the accumulated result nodes and edges, the `expanded_nodes` id set and the
`traversed_path`. -/
structure QState where
  db : Database
  nodes : List DbNode
  edges : List DbEdge
  expanded : List Nat
  path : List Nat
deriving Repr, DecidableEq

/-- Query phase 1 (embedding_search), graph.py `query_streaming`: for each
vector-search hit `(id, similarity)`, fetch the node, append it to the
result and the traversal path, bump its access count, and emit one event. -/
def phase1 (now : Nat) : QState → List (Nat × ℚ) → QState × List QueryEvent
  | st, [] => (st, [])
  | st, (rid, s) :: rest =>
    match get_node st.db rid with
    | none => phase1 now st rest
    | some n =>
      let st1 : QState :=
        { st with
            db := update_node_access st.db n.id now
            nodes := st.nodes ++ [n]
            path := st.path ++ [n.id] }
      let pr := phase1 now st1 rest
      (pr.1, QueryEvent.embedding_search n.id s :: pr.2)

/-- Query phase 2 inner loop for one ranked node `cur` over its fetched edge
list: record and reinforce each edge (+0.1), emit the edge event; when the
edge's other endpoint is new, fetch it, add it to the result set, path and
expanded set, and emit its discovery event scored `weight * 0.7`. -/
def phase2_inner (now : Nat) (cur : DbNode) : QState → List DbEdge → QState × List QueryEvent
  | st, [] => (st, [])
  | st, e :: rest =>
    let st1 : QState := { st with edges := st.edges ++ [e], db := boost_edge st.db e.id (0.1 : ℚ) now }
    let other_id := if e.source_id = cur.id then e.target_id else e.source_id
    if other_id ∈ st1.expanded then
      let pr := phase2_inner now cur st1 rest
      (pr.1, QueryEvent.edge_expansion_edge cur.id e.id :: pr.2)
    else
      match get_node st1.db other_id with
      | none =>
        let pr := phase2_inner now cur st1 rest
        (pr.1, QueryEvent.edge_expansion_edge cur.id e.id :: pr.2)
      | some other_node =>
        let st2 : QState :=
          { st1 with
              nodes := st1.nodes ++ [other_node]
              expanded := st1.expanded ++ [other_id]
              path := st1.path ++ [other_id] }
        let pr := phase2_inner now cur st2 rest
        (pr.1,
          QueryEvent.edge_expansion_edge cur.id e.id ::
            QueryEvent.edge_expansion_node other_id (e.weight * (0.7 : ℚ)) :: pr.2)

/-- Query phase 2 (edge_expansion) outer loop over the first 5 ranked nodes,
fetching each one's incident edges from the current store. -/
def phase2_outer (now : Nat) : QState → List DbNode → QState × List QueryEvent
  | st, [] => (st, [])
  | st, n :: rest =>
    let pr1 := phase2_inner now n st (get_edges_for_node st.db n.id)
    let pr2 := phase2_outer now pr1.1 rest
    (pr2.1, pr1.2 ++ pr2.2)

/-- Query phase 3 (entity_match): for each entity extracted from the query
text, a case-insensitive exact name lookup on the raw surface text; a hit
whose id is not in the expanded set is appended to the result and path and
emits an event with fixed score 0.95. The expanded set itself is not
updated. -/
def phase3 : QState → List ExtractedEntity → QState × List QueryEvent
  | st, [] => (st, [])
  | st, ent :: rest =>
    match find_node_by_name st.db ent.text none with
    | some matching =>
      if matching.id ∈ st.expanded then phase3 st rest
      else
        let st1 : QState := { st with nodes := st.nodes ++ [matching], path := st.path ++ [matching.id] }
        let pr := phase3 st1 rest
        (pr.1, QueryEvent.entity_match matching.id (0.95 : ℚ) :: pr.2)
    | none => phase3 st rest

/-- Phases 1-3 of graph.py `query`/`query_streaming` (their graph-retrieval
part is line-for-line identical in the two functions): embedding search over
the ranked hits, edge expansion seeded with the first 5 phase-1 nodes after
initializing `expanded_nodes` to the phase-1 ids, then entity matching over
the entities extracted from the query text. -/
def graph_phases (db : Database) (search_results : List (Nat × ℚ))
    (query_entities : List ExtractedEntity) (now : Nat) : QState × List QueryEvent :=
  let st0 : QState := { db := db, nodes := [], edges := [], expanded := [], path := [] }
  let pr1 := phase1 now st0 search_results
  let st1 : QState := { pr1.1 with expanded := pr1.1.nodes.map (fun n => n.id) }
  let pr2 := phase2_outer now st1 (st1.nodes.take 5)
  let pr3 := phase3 pr2.1 query_entities
  (pr3.1, pr1.2 ++ pr2.2 ++ pr3.2)

/-- schema.py `QueryResult`. -/
structure QueryResult where
  nodes : List DbNode
  edges : List DbEdge
  traversed_path : List Nat
  response : Option String
  latency_ms : ℚ
  used_llm : Bool
deriving Repr, DecidableEq

/-- graph.py `_check_query_adaptations`: count the accessed nodes per type;
each type with at least 3 accesses in this query adds its count to the
cumulative in-memory counter, and once that counter reaches the threshold 5
for a type still absent from the schema registry, the type is promoted via
`create_schema_type`. -/
def check_query_adaptations (db : Database) (tc : List (String × Nat))
    (accessed : List DbNode) (now : Nat) : Database × List (String × Nat) :=
  (counter_of (accessed.map (fun n => n.entity_type))).foldl
    (fun acc p =>
      if 3 ≤ p.2 then
        let tc1 := counter_add acc.2 p.1 p.2
        if 5 ≤ counter_get tc1 p.1 then
          if p.1 ∈ (get_schema_types acc.1).map (fun s => s.name) then (acc.1, tc1)
          else (create_schema_type acc.1 p.1 none now, tc1)
        else (acc.1, tc1)
      else acc)
    (db, tc)

/-- graph.py `query` (non-streaming): phases 1-3, then generation when
requested, available and the result set is non-empty, then metrics recording
and the query-time promotion check. `search_results`, `query_entities`
(GLiNER on the query text with context re-prioritization), `llm_available`
and `llm_response` are the external collaborators' outputs. -/
def query (svc : GraphService) (use_llm : Bool) (search_results : List (Nat × ℚ))
    (query_entities : List ExtractedEntity) (llm_available : Bool) (llm_response : String)
    (now : Nat) (latency : ℚ) : QueryResult × GraphService :=
  let gp := graph_phases svc.db search_results query_entities now
  let st := gp.1
  let used_llm := use_llm && llm_available && !st.nodes.isEmpty
  let response : Option String := if used_llm then some llm_response else none
  let db5 := record_query st.db latency used_llm
  let ca := check_query_adaptations db5 svc.type_counts st.nodes now
  ({ nodes := st.nodes, edges := st.edges, traversed_path := st.path, response := response
     latency_ms := latency, used_llm := used_llm },
   { db := ca.1, type_counts := ca.2 })

/-- graph.py `query_streaming`: the same pipeline as `query`, additionally
emitting the ordered trace: the phase 1-3 events, then the single
`llm_thinking` phase announcement when generation runs, then the terminal
`complete` event. -/
def query_streaming (svc : GraphService) (use_llm : Bool) (search_results : List (Nat × ℚ))
    (query_entities : List ExtractedEntity) (llm_available : Bool) (llm_response : String)
    (now : Nat) (latency : ℚ) : QueryResult × GraphService × List QueryEvent :=
  let gp := graph_phases svc.db search_results query_entities now
  let st := gp.1
  let used_llm := use_llm && llm_available && !st.nodes.isEmpty
  let llm_events : List QueryEvent := if used_llm then [QueryEvent.llm_thinking] else []
  let response : Option String := if used_llm then some llm_response else none
  let db5 := record_query st.db latency used_llm
  let ca := check_query_adaptations db5 svc.type_counts st.nodes now
  ({ nodes := st.nodes, edges := st.edges, traversed_path := st.path, response := response
     latency_ms := latency, used_llm := used_llm },
   { db := ca.1, type_counts := ca.2 },
   gp.2 ++ llm_events ++ [QueryEvent.complete])

/-! ### Helper lemmas -/

theorem char_toNat_ofNat (n : Nat) (hv : n.isValidChar) : (Char.ofNat n).toNat = n := by
  simp [Char.ofNat, dif_pos hv, Char.ofNatAux, Char.toNat]
  rfl

theorem char_toLower_idem (c : Char) : c.toLower.toLower = c.toLower := by
  simp only [Char.toLower]
  split
  · next h =>
    have hv : Nat.isValidChar (c.toNat + 32) := Or.inl (by omega)
    rw [char_toNat_ofNat (c.toNat + 32) hv]
    rw [if_neg (by omega)]
  · rfl

theorem sqlLower_idem (s : String) : sqlLower (sqlLower s) = sqlLower s := by
  simp only [sqlLower, List.map_map]
  congr 1
  apply List.map_congr_left
  intro c _
  exact char_toLower_idem c

theorem mem_ins_by (lt : α → α → Bool) (a x : α) (l : List α) :
    x ∈ ins_by lt a l ↔ x = a ∨ x ∈ l := by
  induction l with
  | nil => simp [ins_by]
  | cons b bs ih =>
    simp only [ins_by]
    split
    · simp
    · simp only [List.mem_cons, ih]
      tauto

theorem mem_sort_by_aux (lt : α → α → Bool) (x : α) (l acc : List α) :
    x ∈ l.foldl (fun acc a => ins_by lt a acc) acc ↔ x ∈ acc ∨ x ∈ l := by
  induction l generalizing acc with
  | nil => simp
  | cons a as ih =>
    simp only [List.foldl_cons, ih, mem_ins_by, List.mem_cons]
    tauto

theorem mem_sort_by (lt : α → α → Bool) (x : α) (l : List α) :
    x ∈ sort_by lt l ↔ x ∈ l := by
  simp [sort_by, mem_sort_by_aux]

theorem mem_get_schema_types_names (db : Database) (s : String) :
    s ∈ (get_schema_types db).map (fun r => r.name) ↔
      s ∈ db.schema_types.map (fun r => r.name) := by
  simp only [List.mem_map, get_schema_types]
  constructor
  · rintro ⟨r, hr, rfl⟩
    exact ⟨r, (mem_sort_by _ r _).mp hr, rfl⟩
  · rintro ⟨r, hr, rfl⟩
    exact ⟨r, (mem_sort_by _ r _).mpr hr, rfl⟩

/-! ### C3: edge-weight clamping -/

/-- C3: for every edge whose weight lies in [0.1, 10.0], after a `boost_edge`
(with nonnegative boost amount, as at every call site) or a `decay_edges`
(with factor in [0, 1], as at every call site) the weight still lies in
[0.1, 10.0]: boost adds the amount and clamps to at most 10.0, decay
multiplies by the factor and clamps to at least 0.1. -/
theorem boost_decay_weight_bounds (db : Database) (edge_id : Nat) (amount factor : ℚ)
    (now : Nat) (hamt : 0 ≤ amount) (hf0 : 0 ≤ factor) (hf1 : factor ≤ 1)
    (hw : ∀ e ∈ db.edges, (0.1 : ℚ) ≤ e.weight ∧ e.weight ≤ 10) :
    (∀ e ∈ (boost_edge db edge_id amount now).edges,
      (0.1 : ℚ) ≤ e.weight ∧ e.weight ≤ 10) ∧
    (∀ e ∈ (decay_edges db factor).edges,
      (0.1 : ℚ) ≤ e.weight ∧ e.weight ≤ 10) := by
  constructor
  · intro e he
    simp only [boost_edge, List.mem_map] at he
    obtain ⟨e0, he0, rfl⟩ := he
    obtain ⟨h1, h2⟩ := hw e0 he0
    split_ifs with h
    · exact ⟨le_min (by linarith) (by norm_num), min_le_right _ _⟩
    · exact ⟨h1, h2⟩
  · intro e he
    simp only [decay_edges, List.mem_map] at he
    obtain ⟨e0, he0, rfl⟩ := he
    obtain ⟨h1, h2⟩ := hw e0 he0
    refine ⟨le_max_right _ _, max_le ?_ (by norm_num)⟩
    nlinarith

/-- A store with a single edge of weight 1.0, for witnessing C3 at the
repository's actual call parameters (boost 0.1, decay 0.995). -/
def edge_sample_db : Database := (create_edge (init_db 0) 1 2 "mentions" 1 "m" 0).2

theorem boost_decay_weight_bounds_witness :
    (∀ e ∈ (boost_edge edge_sample_db 1 (0.1 : ℚ) 7).edges,
      (0.1 : ℚ) ≤ e.weight ∧ e.weight ≤ 10) ∧
    (∀ e ∈ (decay_edges edge_sample_db (0.995 : ℚ)).edges,
      (0.1 : ℚ) ≤ e.weight ∧ e.weight ≤ 10) :=
  boost_decay_weight_bounds edge_sample_db 1 (0.1 : ℚ) (0.995 : ℚ) 7
    (by norm_num) (by norm_num) (by norm_num) (by with_unfolding_all decide)

/-! ### C8: clear_all -/

/-- C8: `clear_all` deletes all nodes, edges and adaptation-log entries,
zeroes the metrics counters, removes every non-seed schema type and keeps
every seed schema type with its count reset to zero — in particular the four
seed types survive with count 0 whenever they were present (as `_init_schema`
guarantees). -/
theorem clear_all_spec (db : Database)
    (hseed : ∀ t ∈ seed_types, ∃ r ∈ db.schema_types, r.name = t ∧ r.is_seed = true) :
    (clear_all db).nodes = [] ∧
    (clear_all db).edges = [] ∧
    (clear_all db).adaptation_events = [] ∧
    (clear_all db).metrics = { total_queries := 0, llm_calls := 0, total_latency_ms := 0 } ∧
    (∀ r ∈ (clear_all db).schema_types, r.is_seed = true ∧ r.count = 0) ∧
    (∀ t ∈ seed_types, ∃ r ∈ (clear_all db).schema_types,
      r.name = t ∧ r.is_seed = true ∧ r.count = 0) := by
  refine ⟨rfl, rfl, rfl, rfl, ?_, ?_⟩
  · intro r hr
    simp only [clear_all, List.mem_filter, List.mem_map] at hr
    obtain ⟨⟨r0, _, rfl⟩, hs⟩ := hr
    by_cases h : r0.is_seed
    · simp [if_pos h, h]
    · simp only [if_neg h] at hs ⊢
      exact absurd hs (by simp [h])
  · intro t ht
    obtain ⟨r, hr, hname, hs⟩ := hseed t ht
    refine ⟨{ r with count := 0 }, ?_, hname, hs, rfl⟩
    simp only [clear_all, List.mem_filter, List.mem_map]
    exact ⟨⟨r, hr, by rw [if_pos hs]⟩, hs⟩

theorem clear_all_spec_witness :
    (clear_all (init_db 0)).nodes = [] ∧
    (clear_all (init_db 0)).edges = [] ∧
    (clear_all (init_db 0)).adaptation_events = [] ∧
    (clear_all (init_db 0)).metrics = { total_queries := 0, llm_calls := 0, total_latency_ms := 0 } ∧
    (∀ r ∈ (clear_all (init_db 0)).schema_types, r.is_seed = true ∧ r.count = 0) ∧
    (∀ t ∈ seed_types, ∃ r ∈ (clear_all (init_db 0)).schema_types,
      r.name = t ∧ r.is_seed = true ∧ r.count = 0) :=
  clear_all_spec (init_db 0) (by decide)

/-! ### C9: idempotent promotion primitive -/

theorem create_schema_type_schema (db : Database) (name : String) (ef : Option String)
    (now : Nat) :
    (create_schema_type db name ef now).schema_types =
      if name ∈ db.schema_types.map (fun r => r.name) then db.schema_types
      else db.schema_types ++
        [{ name := name, count := 0, is_seed := false, evolved_from := ef, created_at := now }] := by
  simp only [create_schema_type, log_adaptation]
  split_ifs with h <;> rfl

theorem create_schema_type_mem_names (db : Database) (name : String) (ef : Option String)
    (now : Nat) :
    name ∈ (create_schema_type db name ef now).schema_types.map (fun r => r.name) := by
  rw [create_schema_type_schema]
  split_ifs with h
  · exact h
  · simp

theorem filter_name_length_one (l : List SchemaTypeRow) (name : String)
    (hnd : (l.map (fun r => r.name)).Nodup) (hmem : name ∈ l.map (fun r => r.name)) :
    (l.filter (fun r => r.name == name)).length = 1 := by
  induction l with
  | nil => simp at hmem
  | cons r rs ih =>
    simp only [List.map_cons, List.nodup_cons] at hnd
    obtain ⟨hr, hrs⟩ := hnd
    by_cases h : r.name = name
    · subst h
      rw [List.filter_cons_of_pos (by simp)]
      have hnil : rs.filter (fun s => s.name == r.name) = [] := by
        rw [List.filter_eq_nil_iff]
        intro s hs
        simp only [beq_iff_eq]
        intro hcontra
        exact hr (hcontra ▸ List.mem_map_of_mem (fun x => x.name) hs)
      simp [hnil]
    · rw [List.filter_cons_of_neg (by simp [h])]
      apply ih hrs
      rcases List.mem_cons.mp hmem with h1 | h1
      · exact absurd h1.symm h
      · exact h1

/-- C9: promoting an already-registered type is a no-op on the registry:
calling `create_schema_type` twice with the same name leaves the schema
table of the first call untouched, and (given the table's primary-key
uniqueness) exactly one row carries that name, with the first call's fields
unchanged by the second call. -/
theorem create_schema_type_idempotent (db : Database) (name : String)
    (ef1 ef2 : Option String) (now1 now2 : Nat)
    (hpk : (db.schema_types.map (fun r => r.name)).Nodup) :
    (create_schema_type (create_schema_type db name ef1 now1) name ef2 now2).schema_types =
      (create_schema_type db name ef1 now1).schema_types ∧
    ((create_schema_type db name ef1 now1).schema_types.filter
      (fun r => r.name == name)).length = 1 := by
  have hmem := create_schema_type_mem_names db name ef1 now1
  constructor
  · rw [create_schema_type_schema, if_pos hmem]
  · have hnd1 : ((create_schema_type db name ef1 now1).schema_types.map
        (fun r => r.name)).Nodup := by
      rw [create_schema_type_schema]
      split_ifs with h
      · exact hpk
      · rw [List.map_append]
        simp only [List.map_cons, List.map_nil]
        rw [List.nodup_append]
        refine ⟨hpk, List.nodup_singleton _, ?_⟩
        intro s hs
        simp only [List.mem_singleton]
        intro hcontra
        exact h (hcontra ▸ hs)
    exact filter_name_length_one _ name hnd1 hmem

theorem create_schema_type_idempotent_witness :
    (create_schema_type (create_schema_type (init_db 0) "gadget" none 1) "gadget" none 2).schema_types =
      (create_schema_type (init_db 0) "gadget" none 1).schema_types ∧
    ((create_schema_type (init_db 0) "gadget" none 1).schema_types.filter
      (fun r => r.name == "gadget")).length = 1 :=
  create_schema_type_idempotent (init_db 0) "gadget" none none 1 2 (by decide)

/-! ### C6: merge_overlapping -/

/-- C6: `merge_overlapping` sorts by (start ascending, score descending) and
sweeps left to right keeping a current best span; a candidate overlaps the
current span exactly when its start is strictly below the current span's
end, in which case the higher-scoring span is kept, otherwise the current
span is emitted and the candidate becomes current. On spans
[(0,5,0.9), (3,8,0.6), (10,15,0.8)] the output is [(0,5), (10,15)]. -/
theorem merge_overlapping_spec :
    merge_overlapping
        [{ text := "s1", label := "l", start := 0, end_ := 5, score := (0.9 : ℚ) },
         { text := "s2", label := "l", start := 3, end_ := 8, score := (0.6 : ℚ) },
         { text := "s3", label := "l", start := 10, end_ := 15, score := (0.8 : ℚ) }] =
      [{ text := "s1", label := "l", start := 0, end_ := 5, score := (0.9 : ℚ) },
       { text := "s3", label := "l", start := 10, end_ := 15, score := (0.8 : ℚ) }] ∧
    (∀ current ent rest, merge_sweep current (ent :: rest) =
      if ent.start < current.end_ then
        if current.score < ent.score then merge_sweep ent rest else merge_sweep current rest
      else current :: merge_sweep ent rest) ∧
    (∀ a b, span_lt a b =
      (a.start < b.start || (a.start == b.start && decide (b.score < a.score)))) ∧
    (∀ l, merge_overlapping l =
      match sort_by span_lt l with
      | [] => []
      | current :: rest => merge_sweep current rest) :=
  ⟨by with_unfolding_all decide, fun _ _ _ => rfl, fun _ _ => rfl, fun _ => rfl⟩

/-! ### C1: ingestion-time type promotion -/

theorem create_schema_type_names_mono (db : Database) (name : String) (ef : Option String)
    (now : Nat) (s : String) (h : s ∈ db.schema_types.map (fun r => r.name)) :
    s ∈ (create_schema_type db name ef now).schema_types.map (fun r => r.name) := by
  rw [create_schema_type_schema]
  split_ifs with hc
  · exact h
  · rw [List.map_append]
    exact List.mem_append_left _ h

theorem create_schema_type_events (db : Database) (name : String) (ef : Option String)
    (now : Nat) :
    (create_schema_type db name ef now).adaptation_events =
      db.adaptation_events ++
        [{ event_type := "type_created", description := "New entity type " ++ name ++ " created"
           timestamp := now, details := [("type_name", name)] }] := by
  simp only [create_schema_type, log_adaptation]
  split_ifs <;> rfl

theorem promote_fold_names_mono (sn : List String) (now : Nat) :
    ∀ (pairs : List (String × Nat)) (db : Database) (s : String),
      s ∈ db.schema_types.map (fun r => r.name) →
      s ∈ (promote_fold sn now db pairs).schema_types.map (fun r => r.name) := by
  intro pairs
  induction pairs with
  | nil => intro db s h; exact h
  | cons p rest ih =>
    intro db s h
    obtain ⟨t, c⟩ := p
    simp only [promote_fold]
    split_ifs with hcond
    · exact ih _ s (create_schema_type_names_mono _ _ _ _ s h)
    · exact ih _ s h

theorem promote_fold_events_mono (sn : List String) (now : Nat) :
    ∀ (pairs : List (String × Nat)) (db : Database) (ev : AdaptationRow),
      ev ∈ db.adaptation_events →
      ev ∈ (promote_fold sn now db pairs).adaptation_events := by
  intro pairs
  induction pairs with
  | nil => intro db ev h; exact h
  | cons p rest ih =>
    intro db ev h
    obtain ⟨t, c⟩ := p
    simp only [promote_fold]
    split_ifs with hcond
    · apply ih
      simp only [log_adaptation, create_schema_type_events]
      rw [List.append_assoc]
      exact List.mem_append_left _ h
    · exact ih _ ev h

theorem promote_fold_promotes (sn : List String) (now : Nat) (t : String) (c : Nat)
    (hn : t ∉ sn) (hc : 5 ≤ c) :
    ∀ (pairs : List (String × Nat)) (db : Database), (t, c) ∈ pairs →
      t ∈ (promote_fold sn now db pairs).schema_types.map (fun r => r.name) ∧
      ∃ ev ∈ (promote_fold sn now db pairs).adaptation_events,
        ev.event_type = "type_promoted" ∧ ("type", t) ∈ ev.details := by
  intro pairs
  induction pairs with
  | nil => intro db h; simp at h
  | cons p rest ih =>
    intro db hmem
    rcases List.mem_cons.mp hmem with heq | hrest
    · obtain rfl := heq.symm
      simp only [promote_fold]
      rw [if_pos ⟨hn, hc⟩]
      constructor
      · apply promote_fold_names_mono
        simp only [log_adaptation]
        exact create_schema_type_mem_names _ _ _ _
      · refine ⟨{ event_type := "type_promoted"
                  description := "Entity type " ++ t ++ " promoted to schema type"
                  timestamp := now, details := [("type", t), ("count", toString c)] },
                ?_, rfl, List.mem_cons_self _ _⟩
        apply promote_fold_events_mono
        simp only [log_adaptation]
        apply List.mem_append_right
        exact List.mem_singleton.mpr rfl
    · obtain ⟨t', c'⟩ := p
      simp only [promote_fold]
      split_ifs with hcond
      · exact ih _ hrest
      · exact ih _ hrest

theorem mem_counter_keys (t : String) : ∀ l : List String, t ∈ counter_keys l ↔ t ∈ l := by
  intro l
  induction l with
  | nil => simp [counter_keys]
  | cons a as ih =>
    simp only [counter_keys, List.mem_cons, List.mem_filter]
    constructor
    · rintro (rfl | ⟨h1, _⟩)
      · exact Or.inl rfl
      · exact Or.inr (ih.mp h1)
    · rintro (rfl | h1)
      · exact Or.inl rfl
      · by_cases ha : t = a
        · exact Or.inl ha
        · exact Or.inr ⟨ih.mpr h1, by simpa using ha⟩

theorem mem_counter_of (l : List String) (t : String) (h : t ∈ l) :
    (t, l.count t) ∈ counter_of l :=
  List.mem_map_of_mem _ ((mem_counter_keys t l).mpr h)

/-- C1: after each note's entities are linked, `_check_type_promotions`
recomputes per-type node counts over every node in the store, and every
entity type absent from the schema-type registry whose node count reaches
the threshold 5 is promoted into the registry with a `type_promoted`
adaptation event naming the type. -/
theorem check_type_promotions_spec (db : Database) (now : Nat) (t : String)
    (hc : 5 ≤ (db.nodes.map (fun n => n.entity_type)).count t)
    (hn : t ∉ db.schema_types.map (fun r => r.name)) :
    t ∈ (check_type_promotions db now).schema_types.map (fun r => r.name) ∧
    ∃ ev ∈ (check_type_promotions db now).adaptation_events,
      ev.event_type = "type_promoted" ∧ ("type", t) ∈ ev.details := by
  have hmem : t ∈ db.nodes.map (fun n => n.entity_type) :=
    List.count_pos_iff.mp (by omega)
  have hn2 : t ∉ (get_schema_types db).map (fun s => s.name) := by
    intro hcontra
    exact hn ((mem_get_schema_types_names db t).mp hcontra)
  exact promote_fold_promotes _ now t _ hn2 hc _ db
    (mem_counter_of (db.nodes.map (fun n => n.entity_type)) t hmem)

/-- A store holding five nodes of the unregistered type "gadget", witnessing
the C1 promotion. Such a state is directly constructible in the store even
though `create_node` itself registers types as it goes. -/
def promo_node (i : Nat) : DbNode :=
  { id := i, name := "g", entity_type := "gadget", content := none, metadata := ""
    created_at := 0, updated_at := 0, access_count := 0 }

def promo_db : Database :=
  { nodes := (List.range 5).map promo_node
    edges := []
    schema_types := (init_db 0).schema_types
    adaptation_events := []
    metrics := { total_queries := 0, llm_calls := 0, total_latency_ms := 0 }
    next_id := 5 }

theorem check_type_promotions_spec_witness :
    "gadget" ∈ (check_type_promotions promo_db 0).schema_types.map (fun r => r.name) ∧
    ∃ ev ∈ (check_type_promotions promo_db 0).adaptation_events,
      ev.event_type = "type_promoted" ∧ ("type", "gadget") ∈ ev.details :=
  check_type_promotions_spec promo_db 0 "gadget" (by decide) (by decide)

/-! ### C4: streaming event order -/

def is_embedding_event : QueryEvent → Bool
  | .embedding_search _ _ => true
  | _ => false

def is_edge_event : QueryEvent → Bool
  | .edge_expansion_edge _ _ => true
  | _ => false

def is_discovery_event : QueryEvent → Bool
  | .edge_expansion_node _ _ => true
  | _ => false

def is_match_event : QueryEvent → Bool
  | .entity_match _ _ => true
  | _ => false

/-- The adjacency contract of phase 2: an event may be a discovery event only
if its immediate predecessor is an edge event. -/
def discovery_preceded (a b : QueryEvent) : Prop :=
  is_discovery_event b = true → is_edge_event a = true

theorem phase1_events (now : Nat) :
    ∀ (l : List (Nat × ℚ)) (st : QState),
      ∀ e ∈ (phase1 now st l).2, is_embedding_event e = true := by
  intro l
  induction l with
  | nil => intro st e he; simp [phase1] at he
  | cons p rest ih =>
    intro st e he
    obtain ⟨rid, s⟩ := p
    rcases hg : get_node st.db rid with _ | n
    · simp only [phase1, hg] at he
      exact ih _ e he
    · simp only [phase1, hg] at he
      rcases List.mem_cons.mp he with rfl | hmem
      · rfl
      · exact ih _ e hmem

theorem phase2_inner_cons_shape (now : Nat) (cur : DbNode) (st : QState) (e : DbEdge)
    (rest : List DbEdge) :
    ∃ (st1 : QState) (extra : List QueryEvent),
      (phase2_inner now cur st (e :: rest)).2 =
        QueryEvent.edge_expansion_edge cur.id e.id ::
          (extra ++ (phase2_inner now cur st1 rest).2) ∧
      (extra = [] ∨ ∃ nid sc, extra = [QueryEvent.edge_expansion_node nid sc]) := by
  by_cases hsrc : e.source_id = cur.id
  all_goals
    simp only [phase2_inner, hsrc, if_pos, if_neg, ite_true, ite_false, if_true, if_false]
  all_goals
    split
  · exact ⟨_, [], rfl, Or.inl rfl⟩
  · split
    · exact ⟨_, [], rfl, Or.inl rfl⟩
    · exact ⟨_, [QueryEvent.edge_expansion_node e.target_id (e.weight * (0.7 : ℚ))],
        rfl, Or.inr ⟨_, _, rfl⟩⟩
  · exact ⟨_, [], rfl, Or.inl rfl⟩
  · split
    · exact ⟨_, [], rfl, Or.inl rfl⟩
    · exact ⟨_, [QueryEvent.edge_expansion_node e.source_id (e.weight * (0.7 : ℚ))],
        rfl, Or.inr ⟨_, _, rfl⟩⟩

theorem phase2_inner_shape (now : Nat) (cur : DbNode) :
    ∀ (l : List DbEdge) (st : QState),
      (∀ e ∈ (phase2_inner now cur st l).2,
        (is_edge_event e || is_discovery_event e) = true) ∧
      (∀ h ∈ (phase2_inner now cur st l).2.head?, is_discovery_event h = false) ∧
      List.Chain' discovery_preceded (phase2_inner now cur st l).2 := by
  intro l
  induction l with
  | nil =>
    intro st
    exact ⟨by simp [phase2_inner], by simp [phase2_inner], by simp [phase2_inner]⟩
  | cons e rest ih =>
    intro st
    obtain ⟨st1, extra, hshape, hextra⟩ := phase2_inner_cons_shape now cur st e rest
    obtain ⟨ihA, ihB, ihC⟩ := ih st1
    rw [hshape]
    rcases hextra with rfl | ⟨nid, sc, rfl⟩
    · simp only [List.nil_append]
      refine ⟨?_, ?_, ?_⟩
      · intro ev hev
        rcases List.mem_cons.mp hev with rfl | hm
        · rfl
        · exact ihA ev hm
      · intro h hh
        simp only [List.head?_cons, Option.mem_def, Option.some.injEq] at hh
        subst hh
        rfl
      · rw [List.chain'_cons']
        exact ⟨fun y _ _ => rfl, ihC⟩
    · simp only [List.singleton_append]
      refine ⟨?_, ?_, ?_⟩
      · intro ev hev
        rcases List.mem_cons.mp hev with rfl | hm
        · rfl
        · rcases List.mem_cons.mp hm with rfl | hm2
          · rfl
          · exact ihA ev hm2
      · intro h hh
        simp only [List.head?_cons, Option.mem_def, Option.some.injEq] at hh
        subst hh
        rfl
      · rw [List.chain'_cons', List.chain'_cons']
        refine ⟨fun y _ _ => rfl, fun y hy => ?_, ihC⟩
        intro hd
        exact absurd hd (by simp [ihB y hy])

theorem chain_append_safe (l1 l2 : List QueryEvent)
    (c1 : List.Chain' discovery_preceded l1) (c2 : List.Chain' discovery_preceded l2)
    (h2 : ∀ y ∈ l2.head?, is_discovery_event y = false) :
    List.Chain' discovery_preceded (l1 ++ l2) :=
  List.chain'_append.mpr
    ⟨c1, c2, fun _ _ y hy hd => absurd hd (by simp [h2 y hy])⟩

theorem head_not_discovery_append (l1 l2 : List QueryEvent)
    (h1 : ∀ y ∈ l1.head?, is_discovery_event y = false)
    (h2 : ∀ y ∈ l2.head?, is_discovery_event y = false) :
    ∀ y ∈ (l1 ++ l2).head?, is_discovery_event y = false := by
  cases l1 with
  | nil => simpa using h2
  | cons a as => simpa using h1

theorem phase2_outer_shape (now : Nat) :
    ∀ (l : List DbNode) (st : QState),
      (∀ e ∈ (phase2_outer now st l).2,
        (is_edge_event e || is_discovery_event e) = true) ∧
      (∀ h ∈ (phase2_outer now st l).2.head?, is_discovery_event h = false) ∧
      List.Chain' discovery_preceded (phase2_outer now st l).2 := by
  intro l
  induction l with
  | nil =>
    intro st
    exact ⟨by simp [phase2_outer], by simp [phase2_outer], by simp [phase2_outer]⟩
  | cons n rest ih =>
    intro st
    obtain ⟨hA1, hB1, hC1⟩ := phase2_inner_shape now n (get_edges_for_node st.db n.id) st
    obtain ⟨hA2, hB2, hC2⟩ := ih (phase2_inner now n st (get_edges_for_node st.db n.id)).1
    simp only [phase2_outer]
    refine ⟨?_, ?_, ?_⟩
    · intro e he
      rcases List.mem_append.mp he with hm | hm
      · exact hA1 e hm
      · exact hA2 e hm
    · exact head_not_discovery_append _ _ hB1 hB2
    · exact chain_append_safe _ _ hC1 hC2 hB2

theorem phase3_events :
    ∀ (l : List ExtractedEntity) (st : QState),
      ∀ e ∈ (phase3 st l).2, is_match_event e = true := by
  intro l
  induction l with
  | nil => intro st e he; simp [phase3] at he
  | cons ent rest ih =>
    intro st e he
    rcases hg : find_node_by_name st.db ent.text none with _ | matching
    · simp only [phase3, hg] at he
      exact ih _ e he
    · simp only [phase3, hg] at he
      split_ifs at he with hmem
      · exact ih _ e he
      · rcases List.mem_cons.mp he with rfl | hm
        · rfl
        · exact ih _ e hm

theorem chain_of_no_discovery (l : List QueryEvent)
    (h : ∀ e ∈ l, is_discovery_event e = false) :
    List.Chain' discovery_preceded l := by
  induction l with
  | nil => simp
  | cons a as ih =>
    rw [List.chain'_cons']
    refine ⟨?_, ih (fun e he => h e (List.mem_cons_of_mem a he))⟩
    intro y hy hd
    exact absurd hd (by simp [h y (List.mem_cons_of_mem a (List.mem_of_mem_head? hy))])

theorem match_not_discovery (e : QueryEvent) (h : is_match_event e = true) :
    is_discovery_event e = false := by
  cases e <;> simp_all [is_match_event, is_discovery_event]

theorem embedding_not_discovery (e : QueryEvent) (h : is_embedding_event e = true) :
    is_discovery_event e = false := by
  cases e <;> simp_all [is_embedding_event, is_discovery_event]

/-- The skeleton of an edge row: the fields (id and the two endpoints) that
no query operation ever changes — `boost_edge` touches only weight,
`last_traversed` and `traversal_count`. -/
def edge_skel (e : DbEdge) : Nat × Nat × Nat := (e.id, e.source_id, e.target_id)

def edges_skel (db : Database) : List (Nat × Nat × Nat) := db.edges.map edge_skel

/-- The full phase-2 adjacency contract: an event may be a discovery event
only when its immediate predecessor is an edge event, and the edge id that
predecessor carries names an edge row of the store `db0` having the expanded
node as one endpoint and the discovered node as the opposite endpoint
(`other_id = target if source == node.id else source` in the source) — i.e.
the discovery event is immediately preceded by the very edge event that
exposed its node. -/
def edge_exposes (db0 : Database) (a b : QueryEvent) : Prop :=
  ∀ nid sc, b = QueryEvent.edge_expansion_node nid sc →
    ∃ n eid, a = QueryEvent.edge_expansion_edge n eid ∧
      ∃ e ∈ db0.edges, e.id = eid ∧
        nid = (if e.source_id = n then e.target_id else e.source_id)

theorem not_discovery_edge_exposes (db0 : Database) (a b : QueryEvent)
    (h : is_discovery_event b = false) : edge_exposes db0 a b := by
  intro nid sc heq
  subst heq
  simp [is_discovery_event] at h

theorem chain_append_exposes (db0 : Database) (l1 l2 : List QueryEvent)
    (c1 : List.Chain' (edge_exposes db0) l1) (c2 : List.Chain' (edge_exposes db0) l2)
    (h2 : ∀ y ∈ l2.head?, is_discovery_event y = false) :
    List.Chain' (edge_exposes db0) (l1 ++ l2) :=
  List.chain'_append.mpr
    ⟨c1, c2, fun x _ y hy => not_discovery_edge_exposes db0 x y (h2 y hy)⟩

theorem chain_of_no_discovery_exposes (db0 : Database) (l : List QueryEvent)
    (h : ∀ e ∈ l, is_discovery_event e = false) :
    List.Chain' (edge_exposes db0) l := by
  induction l with
  | nil => simp
  | cons a as ih =>
    rw [List.chain'_cons']
    refine ⟨?_, ih (fun e he => h e (List.mem_cons_of_mem a he))⟩
    intro y hy
    exact not_discovery_edge_exposes db0 a y
      (h y (List.mem_cons_of_mem a (List.mem_of_mem_head? hy)))

theorem edges_skel_boost (db : Database) (eid : Nat) (amt : ℚ) (now : Nat) :
    edges_skel (boost_edge db eid amt now) = edges_skel db := by
  simp only [edges_skel, boost_edge, List.map_map]
  apply List.map_congr_left
  intro e _
  simp only [Function.comp_apply]
  split_ifs <;> rfl

theorem skel_mem (db0 db1 : Database) (hs : edges_skel db1 = edges_skel db0)
    (e : DbEdge) (he : e ∈ db1.edges) :
    ∃ e2 ∈ db0.edges, edge_skel e2 = edge_skel e := by
  have h1 : edge_skel e ∈ edges_skel db0 := by
    rw [← hs]
    exact List.mem_map_of_mem edge_skel he
  obtain ⟨e2, he2, heq⟩ := List.mem_map.mp h1
  exact ⟨e2, he2, heq⟩

theorem get_edges_mem (db : Database) (nid : Nat) (e : DbEdge)
    (he : e ∈ get_edges_for_node db nid) : e ∈ db.edges :=
  List.mem_of_mem_filter he

theorem phase1_db_edges (now : Nat) :
    ∀ (l : List (Nat × ℚ)) (st : QState), (phase1 now st l).1.db.edges = st.db.edges := by
  intro l
  induction l with
  | nil => intro st; rfl
  | cons p rest ih =>
    intro st
    obtain ⟨rid, s⟩ := p
    rcases hg : get_node st.db rid with _ | n
    · simp only [phase1, hg]
      exact ih _
    · simp only [phase1, hg]
      refine Eq.trans (ih _) ?_
      rfl

theorem phase2_inner_skel (now : Nat) (cur : DbNode) :
    ∀ (l : List DbEdge) (st : QState),
      edges_skel (phase2_inner now cur st l).1.db = edges_skel st.db := by
  intro l
  induction l with
  | nil => intro st; rfl
  | cons e rest ih =>
    intro st
    simp only [phase2_inner]
    split
    all_goals try split
    all_goals try split
    all_goals exact Eq.trans (ih _) (edges_skel_boost st.db e.id (0.1 : ℚ) now)

/-- One phase-2 edge iteration emits either just the edge event, or the edge
event immediately followed by the discovery event of the edge's other
endpoint (scored `weight * 0.7`), before the recursion's events. -/
theorem phase2_inner_cons_linked (now : Nat) (cur : DbNode) (st : QState) (e : DbEdge)
    (rest : List DbEdge) :
    ∃ st1 : QState,
      (phase2_inner now cur st (e :: rest)).2 =
        QueryEvent.edge_expansion_edge cur.id e.id :: (phase2_inner now cur st1 rest).2 ∨
      (phase2_inner now cur st (e :: rest)).2 =
        QueryEvent.edge_expansion_edge cur.id e.id ::
          QueryEvent.edge_expansion_node
            (if e.source_id = cur.id then e.target_id else e.source_id)
            (e.weight * (0.7 : ℚ)) :: (phase2_inner now cur st1 rest).2 := by
  by_cases hsrc : e.source_id = cur.id
  all_goals
    simp only [phase2_inner, hsrc, if_pos, if_neg, ite_true, ite_false, if_true, if_false]
  all_goals
    split
  · exact ⟨_, Or.inl rfl⟩
  · split
    · exact ⟨_, Or.inl rfl⟩
    · exact ⟨_, Or.inr rfl⟩
  · exact ⟨_, Or.inl rfl⟩
  · split
    · exact ⟨_, Or.inl rfl⟩
    · exact ⟨_, Or.inr rfl⟩

theorem phase2_inner_linked (db0 : Database) (now : Nat) (cur : DbNode) :
    ∀ (l : List DbEdge) (st : QState),
      (∀ e ∈ l, ∃ e2 ∈ db0.edges, edge_skel e2 = edge_skel e) →
      List.Chain' (edge_exposes db0) (phase2_inner now cur st l).2 := by
  intro l
  induction l with
  | nil => intro st hl; simp [phase2_inner]
  | cons e rest ih =>
    intro st hl
    have hlrest : ∀ x ∈ rest, ∃ e2 ∈ db0.edges, edge_skel e2 = edge_skel x :=
      fun x hx => hl x (List.mem_cons_of_mem e hx)
    obtain ⟨st1, hdisj⟩ := phase2_inner_cons_linked now cur st e rest
    have hhead := (phase2_inner_shape now cur rest st1).2.1
    have hchain := ih st1 hlrest
    rcases hdisj with heq | heq <;> rw [heq]
    · rw [List.chain'_cons']
      refine ⟨?_, hchain⟩
      intro y hy
      exact not_discovery_edge_exposes db0 _ y (hhead y hy)
    · rw [List.chain'_cons', List.chain'_cons']
      refine ⟨?_, ?_, hchain⟩
      · intro y hy
        simp only [List.head?_cons, Option.mem_def, Option.some.injEq] at hy
        subst hy
        intro nid sc heq2
        obtain ⟨e2, he2, hskel⟩ := hl e (List.mem_cons_self e rest)
        simp only [edge_skel, Prod.mk.injEq] at hskel
        obtain ⟨hid, hsrc2, htgt2⟩ := hskel
        injection heq2 with hn hs
        refine ⟨cur.id, e.id, rfl, e2, he2, hid, ?_⟩
        rw [hsrc2, htgt2, ← hn]
      · intro y hy
        exact not_discovery_edge_exposes db0 _ y (hhead y hy)

theorem phase2_outer_linked (db0 : Database) (now : Nat) :
    ∀ (l : List DbNode) (st : QState),
      edges_skel st.db = edges_skel db0 →
      List.Chain' (edge_exposes db0) (phase2_outer now st l).2 ∧
      edges_skel (phase2_outer now st l).1.db = edges_skel db0 := by
  intro l
  induction l with
  | nil => intro st hs; exact ⟨by simp [phase2_outer], hs⟩
  | cons n rest ih =>
    intro st hs
    have hl : ∀ e ∈ get_edges_for_node st.db n.id,
        ∃ e2 ∈ db0.edges, edge_skel e2 = edge_skel e :=
      fun e he => skel_mem db0 st.db hs e (get_edges_mem st.db n.id e he)
    have hc1 := phase2_inner_linked db0 now n (get_edges_for_node st.db n.id) st hl
    have hskel1 : edges_skel (phase2_inner now n st (get_edges_for_node st.db n.id)).1.db =
        edges_skel db0 :=
      (phase2_inner_skel now n (get_edges_for_node st.db n.id) st).trans hs
    obtain ⟨hc2, hskel2⟩ :=
      ih (phase2_inner now n st (get_edges_for_node st.db n.id)).1 hskel1
    have hB2 := (phase2_outer_shape now rest
      (phase2_inner now n st (get_edges_for_node st.db n.id)).1).2.1
    simp only [phase2_outer]
    exact ⟨chain_append_exposes db0 _ _ hc1 hc2 hB2, hskel2⟩

/-- C4: every streaming query emits its trace as zero or more
`embedding_search` events, then zero or more `edge_expansion` events (edge
and discovery payloads), then zero or more `entity_match` events, then at
most one `llm_thinking` event, then exactly one terminal `complete` event.
The trace never begins with a discovery event, and throughout the trace a
discovery event only ever appears immediately after an edge event; moreover
(`edge_exposes`) that immediate predecessor is the edge event that exposed
the discovered node: the edge id it carries names a store edge having the
expanded node (the predecessor's `node_id`) as one endpoint and the
discovered node as the opposite endpoint. -/
theorem query_streaming_event_order (svc : GraphService) (use_llm : Bool)
    (search_results : List (Nat × ℚ)) (query_entities : List ExtractedEntity)
    (llm_available : Bool) (llm_response : String) (now : Nat) (latency : ℚ) :
    ∃ p1 p2 p3 p4,
      (query_streaming svc use_llm search_results query_entities llm_available
          llm_response now latency).2.2 = p1 ++ p2 ++ p3 ++ p4 ++ [QueryEvent.complete] ∧
      (∀ e ∈ p1, is_embedding_event e = true) ∧
      (∀ e ∈ p2, (is_edge_event e || is_discovery_event e) = true) ∧
      (∀ e ∈ p3, is_match_event e = true) ∧
      (p4 = [] ∨ p4 = [QueryEvent.llm_thinking]) ∧
      List.Chain' discovery_preceded
        (query_streaming svc use_llm search_results query_entities llm_available
          llm_response now latency).2.2 ∧
      (∀ h ∈ (query_streaming svc use_llm search_results query_entities llm_available
          llm_response now latency).2.2.head?, is_discovery_event h = false) ∧
      List.Chain' (edge_exposes svc.db)
        (query_streaming svc use_llm search_results query_entities llm_available
          llm_response now latency).2.2 := by
  set st0 : QState :=
    { db := svc.db, nodes := [], edges := [], expanded := [], path := [] } with hst0
  set pr1 := phase1 now st0 search_results with hpr1
  set st1 : QState := { pr1.1 with expanded := pr1.1.nodes.map (fun n => n.id) } with hst1
  set pr2 := phase2_outer now st1 (st1.nodes.take 5) with hpr2
  set pr3 := phase3 pr2.1 query_entities with hpr3
  set p4 : List QueryEvent :=
    if (use_llm && llm_available && !pr3.1.nodes.isEmpty) = true then [QueryEvent.llm_thinking]
    else [] with hp4
  have h1 := phase1_events now search_results st0
  have h2 := phase2_outer_shape now (st1.nodes.take 5) st1
  have h3 := phase3_events query_entities pr2.1
  have hp4shape : p4 = [] ∨ p4 = [QueryEvent.llm_thinking] := by
    rw [hp4]
    split_ifs <;> simp
  have hp4head : ∀ y ∈ p4.head?, is_discovery_event y = false := by
    rcases hp4shape with h | h <;> rw [h]
    · simp
    · intro y hy
      simp only [List.head?_cons, Option.mem_def, Option.some.injEq] at hy
      subst hy
      rfl
  have hev : (query_streaming svc use_llm search_results query_entities llm_available
      llm_response now latency).2.2 = pr1.2 ++ pr2.2 ++ pr3.2 ++ p4 ++ [QueryEvent.complete] := by
    simp only [query_streaming, graph_phases, hpr1, hst1, hpr2, hpr3, hp4, hst0]
  have hh1 : ∀ y ∈ pr1.2.head?, is_discovery_event y = false :=
    fun y hy => embedding_not_discovery y (h1 y (List.mem_of_mem_head? hy))
  have hh3 : ∀ y ∈ pr3.2.head?, is_discovery_event y = false :=
    fun y hy => match_not_discovery y (h3 y (List.mem_of_mem_head? hy))
  have hhc : ∀ y ∈ [QueryEvent.complete].head?, is_discovery_event y = false := by
    intro y hy
    simp only [List.head?_cons, Option.mem_def, Option.some.injEq] at hy
    subst hy
    rfl
  have hskel0 : edges_skel st1.db = edges_skel svc.db := by
    simp only [edges_skel]
    have he : st1.db.edges = svc.db.edges := phase1_db_edges now search_results st0
    rw [he]
  have hexp := phase2_outer_linked svc.db now (st1.nodes.take 5) st1 hskel0
  refine ⟨pr1.2, pr2.2, pr3.2, p4, hev, h1, h2.1, h3, hp4shape, ?_, ?_, ?_⟩
  · rw [hev]
    apply chain_append_safe
    · apply chain_append_safe
      · apply chain_append_safe
        · apply chain_append_safe
          · exact chain_of_no_discovery _ (fun e he => embedding_not_discovery e (h1 e he))
          · exact h2.2.2
          · exact h2.2.1
        · exact chain_of_no_discovery _ (fun e he => match_not_discovery e (h3 e he))
        · exact hh3
      · rcases hp4shape with h | h <;> rw [h]
        · simp
        · simp [List.chain'_singleton]
      · exact hp4head
    · simp [List.chain'_singleton]
    · exact hhc
  · rw [hev]
    exact head_not_discovery_append _ _
      (head_not_discovery_append _ _
        (head_not_discovery_append _ _
          (head_not_discovery_append _ _ hh1 h2.2.1) hh3) hp4head) hhc
  · rw [hev]
    apply chain_append_exposes
    · apply chain_append_exposes
      · apply chain_append_exposes
        · apply chain_append_exposes
          · exact chain_of_no_discovery_exposes svc.db _
              (fun e he => embedding_not_discovery e (h1 e he))
          · exact hexp.1
          · exact h2.2.1
        · exact chain_of_no_discovery_exposes svc.db _
            (fun e he => match_not_discovery e (h3 e he))
        · exact hh3
      · rcases hp4shape with h | h <;> rw [h]
        · simp
        · simp [List.chain'_singleton]
      · exact hp4head
    · simp [List.chain'_singleton]
    · exact hhc

/-! ### C7: graceful degradation when the LLM is unavailable -/

/-- C7: generation runs exactly when it is requested, the generation
collaborator is available and the graph result set is non-empty; in
particular when `is_available()` reports false the query still returns its
graph results (nodes, edges, traversal path are those of phases 1-3,
untouched by the generation branch) with `used_llm = false` and
`response = None`, even when `use_llm = true` was requested — in both the
non-streaming and the streaming pipeline. -/
theorem query_llm_unavailable (svc : GraphService) (use_llm : Bool)
    (search_results : List (Nat × ℚ)) (query_entities : List ExtractedEntity)
    (llm_response : String) (now : Nat) (latency : ℚ) :
    (∀ avail : Bool,
      ((query svc use_llm search_results query_entities avail llm_response now
          latency).1.used_llm = true ↔
        (use_llm = true ∧ avail = true ∧
          (graph_phases svc.db search_results query_entities now).1.nodes ≠ []))) ∧
    (query svc use_llm search_results query_entities false llm_response now
        latency).1.used_llm = false ∧
    (query svc use_llm search_results query_entities false llm_response now
        latency).1.response = none ∧
    (query svc use_llm search_results query_entities false llm_response now
        latency).1.nodes =
      (graph_phases svc.db search_results query_entities now).1.nodes ∧
    (query svc use_llm search_results query_entities false llm_response now
        latency).1.edges =
      (graph_phases svc.db search_results query_entities now).1.edges ∧
    (query svc use_llm search_results query_entities false llm_response now
        latency).1.traversed_path =
      (graph_phases svc.db search_results query_entities now).1.path ∧
    (query_streaming svc use_llm search_results query_entities false llm_response now
        latency).1.used_llm = false ∧
    (query_streaming svc use_llm search_results query_entities false llm_response now
        latency).1.response = none ∧
    (query_streaming svc use_llm search_results query_entities false llm_response now
        latency).1.nodes =
      (graph_phases svc.db search_results query_entities now).1.nodes := by
  refine ⟨?_, ?_, ?_, rfl, rfl, rfl, ?_, ?_, rfl⟩
  · intro avail
    simp only [query, Bool.and_eq_true, Bool.not_eq_true']
    rw [List.isEmpty_eq_false]
    tauto
  · simp [query]
  · simp [query]
  · simp [query_streaming]
  · simp [query_streaming]

theorem query_llm_unavailable_witness :
    (∀ avail : Bool,
      ((query { db := init_db 0, type_counts := [] } true [] [] avail "r" 0 0).1.used_llm = true ↔
        (true = true ∧ avail = true ∧
          (graph_phases (init_db 0) [] [] 0).1.nodes ≠ []))) ∧
    (query { db := init_db 0, type_counts := [] } true [] [] false "r" 0 0).1.used_llm = false ∧
    (query { db := init_db 0, type_counts := [] } true [] [] false "r" 0 0).1.response = none ∧
    (query { db := init_db 0, type_counts := [] } true [] [] false "r" 0 0).1.nodes =
      (graph_phases (init_db 0) [] [] 0).1.nodes ∧
    (query { db := init_db 0, type_counts := [] } true [] [] false "r" 0 0).1.edges =
      (graph_phases (init_db 0) [] [] 0).1.edges ∧
    (query { db := init_db 0, type_counts := [] } true [] [] false "r" 0 0).1.traversed_path =
      (graph_phases (init_db 0) [] [] 0).1.path ∧
    (query_streaming { db := init_db 0, type_counts := [] } true [] [] false "r" 0 0).1.used_llm
      = false ∧
    (query_streaming { db := init_db 0, type_counts := [] } true [] [] false "r" 0 0).1.response
      = none ∧
    (query_streaming { db := init_db 0, type_counts := [] } true [] [] false "r" 0 0).1.nodes =
      (graph_phases (init_db 0) [] [] 0).1.nodes :=
  query_llm_unavailable { db := init_db 0, type_counts := [] } true [] [] "r" 0 0

/-! ### C10: entity_match phase -/

/-- The nodes phase 3 appends: for each extracted query entity, the node
found by a case-insensitive lookup of its raw surface text, kept whenever
its id is not in the (fixed) pre-phase-3 expanded set. One occurrence is
kept per extracted entity — the expanded set is not updated, so several
entities resolving to the same node each contribute an occurrence. -/
def phase3_matches (db : Database) (expanded : List Nat) : List ExtractedEntity → List DbNode
  | [] => []
  | ent :: rest =>
    match find_node_by_name db ent.text none with
    | some m =>
      if m.id ∈ expanded then phase3_matches db expanded rest
      else m :: phase3_matches db expanded rest
    | none => phase3_matches db expanded rest

/-- C10 (amended): in query phase 3, each extracted query entity whose raw
surface text case-insensitively matches an existing node whose id is not in
the result set as it stood at the end of phase 2 appends that node to the
result set and traversal path once per such extracted entity, and in
streaming mode emits one event per appended occurrence with the fixed score
0.95; the membership check uses the pre-phase-3 set throughout, which phase
3 never updates, so distinct extracted entities resolving to the same node
each append it. -/
theorem phase3_characterization (ents : List ExtractedEntity) (st : QState) :
    phase3 st ents =
      ({ st with
          nodes := st.nodes ++ phase3_matches st.db st.expanded ents
          path := st.path ++ (phase3_matches st.db st.expanded ents).map (fun n => n.id) },
        (phase3_matches st.db st.expanded ents).map
          (fun n => QueryEvent.entity_match n.id (0.95 : ℚ))) := by
  induction ents generalizing st with
  | nil => simp [phase3, phase3_matches]
  | cons ent rest ih =>
    rcases hf : find_node_by_name st.db ent.text none with _ | m
    · simp only [phase3, phase3_matches, hf]
      exact ih st
    · by_cases hmem : m.id ∈ st.expanded
      · simp only [phase3, phase3_matches, hf, if_pos hmem]
        exact ih st
      · simp only [phase3, phase3_matches, hf, if_neg hmem]
        rw [ih]
        simp [List.append_assoc]

/-- The store of the C10 counterexample: one node named "paris" of type
"place" (id 0). -/
def paris_db : Database := (create_node (init_db 0) "paris" "place" none "m" 0).2

/-- The query-text entity of the C10 counterexample, extracted twice from
the query text (GLiNER reports one span per occurrence, and
`extract_with_context` does not merge or deduplicate spans). -/
def paris_ent : ExtractedEntity :=
  { text := "paris", label := "location", start := 0, end_ := 5, score := 1 }

/-- C10 counterexample to the claim as stated: with no embedding hits and
the query entity extracted twice, the "paris" node (id 0) is added to the
result set and traversal path twice by phase 3 — the claim's "a node never
appears twice in the result set via phase 3" is false on the code. -/
theorem phase3_duplicate_counterexample :
    (query { db := paris_db, type_counts := [] } false [] [paris_ent, paris_ent]
        false "r" 0 0).1.traversed_path = [0, 0] ∧
    (query { db := paris_db, type_counts := [] } false [] [paris_ent, paris_ent]
        false "r" 0 0).1.nodes.length = 2 ∧
    (query_streaming { db := paris_db, type_counts := [] } false [] [paris_ent, paris_ent]
        false "r" 0 0).2.2 =
      [QueryEvent.entity_match 0 (0.95 : ℚ), QueryEvent.entity_match 0 (0.95 : ℚ),
       QueryEvent.complete] := by
  refine ⟨?_, ?_, ?_⟩ <;> with_unfolding_all decide

/-! ### C2: every node's type is registered -/

/-- The C2 invariant: every node's entity type has a row in the
schema-type registry. -/
def types_registered (db : Database) : Prop :=
  ∀ n ∈ db.nodes, n.entity_type ∈ db.schema_types.map (fun r => r.name)

theorem tr_of_eq (db db' : Database) (hn : db'.nodes = db.nodes)
    (hs : db'.schema_types = db.schema_types) (h : types_registered db) :
    types_registered db' := by
  intro n hmem
  rw [hs]
  exact h n (by rw [hn] at hmem; exact hmem)

theorem tr_of_mono (db db' : Database) (hn : db'.nodes = db.nodes)
    (hs : ∀ s, s ∈ db.schema_types.map (fun r => r.name) →
      s ∈ db'.schema_types.map (fun r => r.name))
    (h : types_registered db) : types_registered db' := by
  intro n hmem
  exact hs _ (h n (by rw [hn] at hmem; exact hmem))

theorem upsert_mem_names (l : List SchemaTypeRow) (t : String) (now : Nat) :
    t ∈ (upsert_schema_count l t now).map (fun r => r.name) := by
  induction l with
  | nil => simp [upsert_schema_count]
  | cons r rs ih =>
    simp only [upsert_schema_count]
    split_ifs with h
    · simp [h]
    · simpa using Or.inr ih

theorem upsert_names_mono (l : List SchemaTypeRow) (t : String) (now : Nat) (s : String) :
    s ∈ l.map (fun r => r.name) →
      s ∈ (upsert_schema_count l t now).map (fun r => r.name) := by
  induction l with
  | nil => intro h; simp at h
  | cons r rs ih =>
    intro h
    simp only [List.map_cons, List.mem_cons] at h
    simp only [upsert_schema_count]
    split_ifs with ht
    · simp only [List.map_cons, List.mem_cons]
      rcases h with h1 | h1
      · exact Or.inl h1
      · exact Or.inr h1
    · simp only [List.map_cons, List.mem_cons]
      rcases h with h1 | h1
      · exact Or.inl h1
      · exact Or.inr (ih h1)

theorem upsert_absent (l : List SchemaTypeRow) (t : String) (now : Nat)
    (h : t ∉ l.map (fun r => r.name)) :
    upsert_schema_count l t now =
      l ++ [{ name := t, count := 1, is_seed := false, evolved_from := none
              created_at := now }] := by
  induction l with
  | nil => rfl
  | cons r rs ih =>
    simp only [List.map_cons, List.mem_cons] at h
    push_neg at h
    simp only [upsert_schema_count, if_neg (Ne.symm h.1)]
    rw [ih h.2]
    rfl

theorem upsert_count_sum (l : List SchemaTypeRow) (t : String) (now : Nat) :
    (((upsert_schema_count l t now).filter (fun r => r.name == t)).map
      (fun r => r.count)).sum =
      ((l.filter (fun r => r.name == t)).map (fun r => r.count)).sum + 1 := by
  induction l with
  | nil => simp [upsert_schema_count]
  | cons r rs ih =>
    simp only [upsert_schema_count]
    split_ifs with h
    · rw [List.filter_cons_of_pos (by simp [h]), List.filter_cons_of_pos (by simp [h])]
      simp only [List.map_cons, List.sum_cons]
      omega
    · by_cases hr : r.name = t
      · exact absurd hr h
      · rw [List.filter_cons_of_neg (by simp [hr]), List.filter_cons_of_neg (by simp [hr])]
        exact ih

theorem upsert_filter_ne (l : List SchemaTypeRow) (t : String) (now : Nat) :
    (upsert_schema_count l t now).filter (fun r => r.name != t) =
      l.filter (fun r => r.name != t) := by
  induction l with
  | nil => simp [upsert_schema_count]
  | cons r rs ih =>
    simp only [upsert_schema_count]
    split_ifs with h
    · rw [List.filter_cons_of_neg (by simp [h]), List.filter_cons_of_neg (by simp [h])]
    · by_cases hr : r.name = t
      · exact absurd hr h
      · rw [List.filter_cons_of_pos (by simp [hr]), List.filter_cons_of_pos (by simp [hr])]
        rw [ih]

theorem tr_create_node (db : Database) (nm t : String) (c : Option String) (m : String)
    (now : Nat) (h : types_registered db) :
    types_registered (create_node db nm t c m now).2 := by
  intro n hmem
  simp only [create_node, List.mem_append, List.mem_singleton] at hmem
  rcases hmem with hmem | rfl
  · exact upsert_names_mono _ _ _ _ (h n hmem)
  · exact upsert_mem_names _ _ _

theorem tr_update_node_access (db : Database) (i now : Nat) (h : types_registered db) :
    types_registered (update_node_access db i now) := by
  intro n hmem
  simp only [update_node_access, List.mem_map] at hmem
  obtain ⟨n0, hn0, rfl⟩ := hmem
  have := h n0 hn0
  split_ifs <;> simpa using this

theorem tr_create_schema_type (db : Database) (nm : String) (ef : Option String) (now : Nat)
    (h : types_registered db) : types_registered (create_schema_type db nm ef now) := by
  apply tr_of_mono db _ _ _ h
  · simp only [create_schema_type, log_adaptation]
    split_ifs <;> rfl
  · intro s hs
    exact create_schema_type_names_mono db nm ef now s hs

theorem promote_fold_nodes (sn : List String) (now : Nat) :
    ∀ (pairs : List (String × Nat)) (db : Database),
      (promote_fold sn now db pairs).nodes = db.nodes := by
  intro pairs
  induction pairs with
  | nil => intro db; rfl
  | cons p rest ih =>
    intro db
    obtain ⟨t, c⟩ := p
    simp only [promote_fold]
    split_ifs with hc
    · rw [ih]
      simp only [log_adaptation, create_schema_type]
      split_ifs <;> rfl
    · exact ih db

theorem tr_promote_fold (sn : List String) (now : Nat) :
    ∀ (pairs : List (String × Nat)) (db : Database),
      types_registered db → types_registered (promote_fold sn now db pairs) := by
  intro pairs
  induction pairs with
  | nil => intro db h; exact h
  | cons p rest ih =>
    intro db h
    obtain ⟨t, c⟩ := p
    simp only [promote_fold]
    split_ifs with hc
    · apply ih
      apply tr_of_mono _ _ rfl _ (tr_create_schema_type db t none now h)
      intro s hs
      exact hs
    · exact ih db h

theorem tr_check_type_promotions (db : Database) (now : Nat) (h : types_registered db) :
    types_registered (check_type_promotions db now) :=
  tr_promote_fold _ now _ db h

theorem tr_clear_all (db : Database) : types_registered (clear_all db) := by
  intro n hmem
  simp [clear_all] at hmem

/-- C2: `create_node` registers the node's entity type in the same operation
that creates the node — inserting a `(count = 1, is_seed = false)` row when
the type is absent, otherwise incrementing the existing row's count and
leaving all other rows unchanged — so the invariant "every node's type has a
schema-registry row" is established at creation and preserved by every store
operation, including `clear_all`. -/
theorem create_node_registers (db : Database) (nm t : String) (c : Option String)
    (m : String) (now : Nat) (i : Nat) (eid sid tid : Nat) (rel : String) (w amt f lat : ℚ)
    (et de : String) (dd : List (String × String)) (ub : Bool) (ef : Option String)
    (h : types_registered db) :
    t ∈ (create_node db nm t c m now).2.schema_types.map (fun r => r.name) ∧
    (t ∉ db.schema_types.map (fun r => r.name) →
      (create_node db nm t c m now).2.schema_types =
        db.schema_types ++
          [{ name := t, count := 1, is_seed := false, evolved_from := none
             created_at := now }]) ∧
    ((((create_node db nm t c m now).2.schema_types.filter (fun r => r.name == t)).map
        (fun r => r.count)).sum =
      ((db.schema_types.filter (fun r => r.name == t)).map (fun r => r.count)).sum + 1) ∧
    ((create_node db nm t c m now).2.schema_types.filter (fun r => r.name != t) =
      db.schema_types.filter (fun r => r.name != t)) ∧
    types_registered (create_node db nm t c m now).2 ∧
    types_registered (update_node_access db i now) ∧
    types_registered (create_edge db sid tid rel w m now).2 ∧
    types_registered (boost_edge db eid amt now) ∧
    types_registered (decay_edges db f) ∧
    types_registered (log_adaptation db et de dd now) ∧
    types_registered (record_query db lat ub) ∧
    types_registered (create_schema_type db et ef now) ∧
    types_registered (check_type_promotions db now) ∧
    types_registered (clear_all db) := by
  refine ⟨upsert_mem_names _ _ _, ?_, upsert_count_sum _ _ _, upsert_filter_ne _ _ _,
    tr_create_node db nm t c m now h, tr_update_node_access db i now h,
    tr_of_eq db _ rfl rfl h, tr_of_eq db _ rfl rfl h, tr_of_eq db _ rfl rfl h,
    tr_of_eq db _ rfl rfl h, tr_of_eq db _ rfl rfl h,
    tr_create_schema_type db et ef now h, tr_check_type_promotions db now h,
    tr_clear_all db⟩
  intro habs
  simp only [create_node]
  exact upsert_absent db.schema_types t now habs

theorem create_node_registers_witness :
    "gadget" ∈ (create_node (init_db 0) "g" "gadget" none "m" 3).2.schema_types.map
      (fun r => r.name) ∧
    ("gadget" ∉ (init_db 0).schema_types.map (fun r => r.name) →
      (create_node (init_db 0) "g" "gadget" none "m" 3).2.schema_types =
        (init_db 0).schema_types ++
          [{ name := "gadget", count := 1, is_seed := false, evolved_from := none
             created_at := 3 }]) ∧
    ((((create_node (init_db 0) "g" "gadget" none "m" 3).2.schema_types.filter
        (fun r => r.name == "gadget")).map (fun r => r.count)).sum =
      (((init_db 0).schema_types.filter (fun r => r.name == "gadget")).map
        (fun r => r.count)).sum + 1) ∧
    ((create_node (init_db 0) "g" "gadget" none "m" 3).2.schema_types.filter
        (fun r => r.name != "gadget") =
      (init_db 0).schema_types.filter (fun r => r.name != "gadget")) ∧
    types_registered (create_node (init_db 0) "g" "gadget" none "m" 3).2 ∧
    types_registered (update_node_access (init_db 0) 0 3) ∧
    types_registered (create_edge (init_db 0) 1 2 "mentions" 1 "m" 3).2 ∧
    types_registered (boost_edge (init_db 0) 1 (0.1 : ℚ) 3) ∧
    types_registered (decay_edges (init_db 0) (0.995 : ℚ)) ∧
    types_registered (log_adaptation (init_db 0) "e" "d" [] 3) ∧
    types_registered (record_query (init_db 0) 1 true) ∧
    types_registered (create_schema_type (init_db 0) "e" none 3) ∧
    types_registered (check_type_promotions (init_db 0) 3) ∧
    types_registered (clear_all (init_db 0)) :=
  create_node_registers (init_db 0) "g" "gadget" none "m" 3 0 1 1 2 "mentions" 1
    (0.1 : ℚ) (0.995 : ℚ) 1 "e" "d" [] true none (by intro n hn; simp [init_db] at hn)

/-! ### C5: note and entity deduplication on double ingestion -/

/-- Some node in the store matches the string `v` under the case-insensitive
lookup of `find_node_by_name`. -/
def name_present (db : Database) (v : String) : Prop :=
  ∃ n ∈ db.nodes, sqlLower n.name = sqlLower v

theorem find_node_by_name_isSome (db : Database) (v : String) :
    (find_node_by_name db v none).isSome = true ↔ name_present db v := by
  simp [find_node_by_name, List.find?_isSome, name_present]

theorem np_of_find_some (db : Database) (v : String) (m : DbNode)
    (h : find_node_by_name db v none = some m) : name_present db v :=
  (find_node_by_name_isSome db v).mp (by rw [h]; rfl)

theorem find_some_of_np (db : Database) (v : String) (h : name_present db v) :
    ∃ m, find_node_by_name db v none = some m :=
  Option.isSome_iff_exists.mp ((find_node_by_name_isSome db v).mpr h)

/-- The list of node names, the only node data the dedup lookup inspects. -/
def names_list (db : Database) : List String := db.nodes.map (fun n => n.name)

theorem name_present_iff_names (db : Database) (v : String) :
    name_present db v ↔ ∃ nm ∈ names_list db, sqlLower nm = sqlLower v := by
  simp [name_present, names_list]

theorem np_congr (db db' : Database) (v : String) (h : names_list db' = names_list db) :
    (name_present db' v ↔ name_present db v) := by
  rw [name_present_iff_names, name_present_iff_names, h]

theorem names_update (db : Database) (i now : Nat) :
    names_list (update_node_access db i now) = names_list db := by
  simp only [names_list, update_node_access, List.map_map]
  apply List.map_congr_left
  intro n _
  simp only [Function.comp_apply]
  split_ifs <;> rfl

theorem update_length (db : Database) (i now : Nat) :
    (update_node_access db i now).nodes.length = db.nodes.length := by
  simp [update_node_access]

theorem create_schema_type_nodes (db : Database) (nm : String) (ef : Option String)
    (now : Nat) : (create_schema_type db nm ef now).nodes = db.nodes := by
  simp only [create_schema_type, log_adaptation]
  split_ifs <;> rfl

theorem create_schema_type_next (db : Database) (nm : String) (ef : Option String)
    (now : Nat) : (create_schema_type db nm ef now).next_id = db.next_id := by
  simp only [create_schema_type, log_adaptation]
  split_ifs <;> rfl

theorem promote_fold_next (sn : List String) (now : Nat) :
    ∀ (pairs : List (String × Nat)) (db : Database),
      (promote_fold sn now db pairs).next_id = db.next_id := by
  intro pairs
  induction pairs with
  | nil => intro db; rfl
  | cons p rest ih =>
    intro db
    obtain ⟨t, c⟩ := p
    simp only [promote_fold]
    split_ifs with hc
    · rw [ih]
      simp only [log_adaptation, create_schema_type]
      split_ifs <;> rfl
    · exact ih db

theorem check_type_promotions_nodes (db : Database) (now : Nat) :
    (check_type_promotions db now).nodes = db.nodes :=
  promote_fold_nodes _ now _ db

theorem check_adaptations_nodes (db : Database) (now : Nat) :
    (check_adaptations db now).nodes = db.nodes := by
  simp only [check_adaptations, decay_edges]
  exact check_type_promotions_nodes db now

theorem check_adaptations_next (db : Database) (now : Nat) :
    (check_adaptations db now).next_id = db.next_id := by
  simp only [check_adaptations, decay_edges]
  exact promote_fold_next _ now _ db

theorem auto_link_one_nodes (sim : String → String → ℚ) (now : Nat) (a : DbNode) :
    ∀ (l : List DbNode) (db : Database), (auto_link_one sim now a db l).1.nodes = db.nodes := by
  intro l
  induction l with
  | nil => intro db; rfl
  | cons b bs ih =>
    intro db
    simp only [auto_link_one]
    split
    · rw [ih]
      rfl
    · split_ifs with hs
      · rw [ih]
        rfl
      · exact ih db

theorem auto_link_one_next_ge (sim : String → String → ℚ) (now : Nat) (a : DbNode) :
    ∀ (l : List DbNode) (db : Database), db.next_id ≤ (auto_link_one sim now a db l).1.next_id := by
  intro l
  induction l with
  | nil => intro db; exact le_refl _
  | cons b bs ih =>
    intro db
    simp only [auto_link_one]
    split
    · next e heq =>
      exact ih (boost_edge db e.id (0.2 : ℚ) now)
    · split_ifs with hs
      · exact le_trans (Nat.le_succ _)
          (ih (create_edge db a.id b.id "co_occurs" (sim a.name b.name) "similarity" now).2)
      · exact ih db

theorem auto_link_similar_nodes (sim : String → String → ℚ) (now : Nat) :
    ∀ (l : List DbNode) (db : Database),
      (auto_link_similar sim now db l).1.nodes = db.nodes := by
  intro l
  induction l with
  | nil => intro db; rfl
  | cons a rest ih =>
    intro db
    simp only [auto_link_similar]
    rw [ih, auto_link_one_nodes]

theorem auto_link_similar_next_ge (sim : String → String → ℚ) (now : Nat) :
    ∀ (l : List DbNode) (db : Database),
      db.next_id ≤ (auto_link_similar sim now db l).1.next_id := by
  intro l
  induction l with
  | nil => intro db; exact le_refl _
  | cons a rest ih =>
    intro db
    simp only [auto_link_similar]
    calc db.next_id ≤ (auto_link_one sim now a db rest).1.next_id :=
          auto_link_one_next_ge sim now a rest db
      _ ≤ _ := ih _

theorem link_to_similar_notes_nodes (nid now : Nat) :
    ∀ (l : List (Nat × ℚ)) (db : Database),
      (link_to_similar_notes nid now db l).1.nodes = db.nodes := by
  intro l
  induction l with
  | nil => intro db; rfl
  | cons p rest ih =>
    intro db
    obtain ⟨sid, s⟩ := p
    simp only [link_to_similar_notes]
    split_ifs with hs
    · split
      · split_ifs with ht
        · rw [ih]
          rfl
        · exact ih db
      · exact ih db
    · exact ih db

theorem link_to_similar_notes_next_ge (nid now : Nat) :
    ∀ (l : List (Nat × ℚ)) (db : Database),
      db.next_id ≤ (link_to_similar_notes nid now db l).1.next_id := by
  intro l
  induction l with
  | nil => intro db; exact le_refl _
  | cons p rest ih =>
    intro db
    obtain ⟨sid, s⟩ := p
    simp only [link_to_similar_notes]
    split_ifs with hs
    · split
      · split_ifs with ht
        · exact le_trans (Nat.le_succ _)
            (ih (create_edge db nid sid "similar_to" s "similarity" now).2)
        · exact ih db
      · exact ih db
    · exact ih db

theorem np_create_node_mono (db : Database) (nm t : String) (c : Option String) (m : String)
    (now : Nat) (v : String) (h : name_present db v) :
    name_present (create_node db nm t c m now).2 v := by
  obtain ⟨n, hn, hl⟩ := h
  exact ⟨n, List.mem_append_left _ hn, hl⟩

theorem np_create_node_self (db : Database) (nm t : String) (c : Option String) (m : String)
    (now : Nat) (v : String) (h : sqlLower nm = sqlLower v) :
    name_present (create_node db nm t c m now).2 v :=
  ⟨(create_node db nm t c m now).1,
    List.mem_append_right _ (List.mem_singleton.mpr rfl), h⟩

theorem np_mono_process (nid now : Nat) (v : String) :
    ∀ (ents : List ExtractedEntity) (db : Database) (tc : List (String × Nat)),
      name_present db v → name_present (process_entities db tc nid ents now).1 v := by
  intro ents
  induction ents with
  | nil => intro db tc h; exact h
  | cons ent rest ih =>
    intro db tc h
    rcases hf : find_node_by_name db (normalize_entity_text ent.text) none with _ | m
    · simp only [process_entities, find_or_create_entity, hf]
      apply ih
      exact np_create_node_mono db ent.text (type_mapping ent.label) none "extraction" now v h
    · simp only [process_entities, find_or_create_entity, hf]
      apply ih
      exact (np_congr db (update_node_access db m.id now) v (names_update db m.id now)).mpr h

theorem process_establishes (nid now : Nat) :
    ∀ (ents : List ExtractedEntity) (db : Database) (tc : List (String × Nat)),
      (∀ ent ∈ ents, sqlLower ent.text = normalize_entity_text ent.text) →
      ∀ ent ∈ ents,
        name_present (process_entities db tc nid ents now).1 (normalize_entity_text ent.text) := by
  intro ents
  induction ents with
  | nil => intro db tc hws ent hmem; simp at hmem
  | cons e rest ih =>
    intro db tc hws ent hmem
    rcases List.mem_cons.mp hmem with rfl | hmem2
    · rcases hf : find_node_by_name db (normalize_entity_text ent.text) none with _ | m
      · simp only [process_entities, find_or_create_entity, hf]
        apply np_mono_process
        apply np_create_node_self
        have h1 := hws ent (List.mem_cons_self _ _)
        calc sqlLower ent.text = sqlLower (sqlLower ent.text) := (sqlLower_idem ent.text).symm
          _ = sqlLower (normalize_entity_text ent.text) := by rw [h1]
      · simp only [process_entities, find_or_create_entity, hf]
        apply np_mono_process
        exact (np_congr db (update_node_access db m.id now) _
          (names_update db m.id now)).mpr (np_of_find_some db _ m hf)
    · rcases hf : find_node_by_name db (normalize_entity_text e.text) none with _ | m
      · simp only [process_entities, find_or_create_entity, hf]
        exact ih _ _ (fun x hx => hws x (List.mem_cons_of_mem _ hx)) ent hmem2
      · simp only [process_entities, find_or_create_entity, hf]
        exact ih _ _ (fun x hx => hws x (List.mem_cons_of_mem _ hx)) ent hmem2

theorem process_all_found (nid now : Nat) :
    ∀ (ents : List ExtractedEntity) (db : Database) (tc : List (String × Nat)),
      (∀ ent ∈ ents, name_present db (normalize_entity_text ent.text)) →
      (process_entities db tc nid ents now).1.nodes.length = db.nodes.length := by
  intro ents
  induction ents with
  | nil => intro db tc hfound; rfl
  | cons e rest ih =>
    intro db tc hfound
    obtain ⟨m, hm⟩ := find_some_of_np db _ (hfound e (List.mem_cons_self _ _))
    simp only [process_entities, find_or_create_entity, hm]
    have htrans : ∀ ent ∈ rest,
        name_present
          (create_edge (update_node_access db m.id now) nid m.id "mentions" e.score
            "extraction_score" now).2 (normalize_entity_text ent.text) := by
      intro x hx
      exact (np_congr db (update_node_access db m.id now) _
        (names_update db m.id now)).mpr (hfound x (List.mem_cons_of_mem _ hx))
    rw [ih _ tc htrans]
    exact update_length db m.id now

theorem process_next_ge (nid now : Nat) :
    ∀ (ents : List ExtractedEntity) (db : Database) (tc : List (String × Nat)),
      db.next_id ≤ (process_entities db tc nid ents now).1.next_id := by
  intro ents
  induction ents with
  | nil => intro db tc; exact le_refl _
  | cons e rest ih =>
    intro db tc
    rcases hf : find_node_by_name db (normalize_entity_text e.text) none with _ | m
    · simp only [process_entities, find_or_create_entity, hf]
      exact le_trans (Nat.le_succ_of_le (Nat.le_succ _))
        (ih (create_edge (create_node db e.text (type_mapping e.label) none "extraction" now).2
          nid (create_node db e.text (type_mapping e.label) none "extraction" now).1.id
          "mentions" e.score "extraction_score" now).2
          (counter_add tc (type_mapping e.label) 1))
    · simp only [process_entities, find_or_create_entity, hf]
      exact le_trans (Nat.le_succ _)
        (ih (create_edge (update_node_access db m.id now) nid m.id "mentions" e.score
          "extraction_score" now).2 tc)

theorem log_adaptation_nodes (db : Database) (et de : String) (dd : List (String × String))
    (now : Nat) : (log_adaptation db et de dd now).nodes = db.nodes := rfl

theorem log_adaptation_next (db : Database) (et de : String) (dd : List (String × String))
    (now : Nat) : (log_adaptation db et de dd now).next_id = db.next_id := rfl

theorem add_note_next_ge (svc : GraphService) (note : Note)
    (extracted : List ExtractedEntity) (sim : String → String → ℚ)
    (similar : List (Nat × ℚ)) (now : Nat) (lat : ℚ) :
    svc.db.next_id + 1 ≤ (add_note svc note extracted sim similar now lat).2.db.next_id := by
  simp only [add_note]
  rw [log_adaptation_next, check_adaptations_next]
  refine le_trans ?_ (link_to_similar_notes_next_ge _ now similar _)
  refine le_trans ?_ (auto_link_similar_next_ge sim now _ _)
  exact process_next_ge
    (create_node svc.db
      (match note.title with
       | some t => t
       | none => note.content.take 50 ++ "...") "note" (some note.content) "tags" now).1.id
    now extracted
    (create_node svc.db
      (match note.title with
       | some t => t
       | none => note.content.take 50 ++ "...") "note" (some note.content) "tags" now).2
    svc.type_counts

theorem add_note_new_nodes (svc : GraphService) (note : Note)
    (extracted : List ExtractedEntity) (sim : String → String → ℚ)
    (similar : List (Nat × ℚ)) (now : Nat) (lat : ℚ)
    (hfound : ∀ ent ∈ extracted, name_present svc.db (normalize_entity_text ent.text)) :
    (add_note svc note extracted sim similar now lat).2.db.nodes.length =
      svc.db.nodes.length + 1 := by
  simp only [add_note]
  rw [log_adaptation_nodes, check_adaptations_nodes, link_to_similar_notes_nodes,
    auto_link_similar_nodes]
  rw [process_all_found _ now extracted _ svc.type_counts
    (fun x hx => np_create_node_mono svc.db _ "note" (some note.content) "tags" now _
      (hfound x hx))]
  simp [create_node]

theorem add_note_names (svc : GraphService) (note : Note)
    (extracted : List ExtractedEntity) (sim : String → String → ℚ)
    (similar : List (Nat × ℚ)) (now : Nat) (lat : ℚ) :
    names_list (add_note svc note extracted sim similar now lat).2.db =
      names_list
        (process_entities
          (create_node svc.db
            (match note.title with
             | some t => t
             | none => note.content.take 50 ++ "...") "note" (some note.content) "tags"
            now).2 svc.type_counts
          (create_node svc.db
            (match note.title with
             | some t => t
             | none => note.content.take 50 ++ "...") "note" (some note.content) "tags"
            now).1.id extracted now).1 := by
  simp only [add_note, names_list]
  rw [log_adaptation_nodes, check_adaptations_nodes, link_to_similar_notes_nodes,
    auto_link_similar_nodes]

theorem add_note_np (svc : GraphService) (note : Note)
    (extracted : List ExtractedEntity) (sim : String → String → ℚ)
    (similar : List (Nat × ℚ)) (now : Nat) (lat : ℚ)
    (hws : ∀ ent ∈ extracted, sqlLower ent.text = normalize_entity_text ent.text) :
    ∀ ent ∈ extracted,
      name_present (add_note svc note extracted sim similar now lat).2.db
        (normalize_entity_text ent.text) := by
  intro ent hmem
  exact (np_congr _ _ _ (add_note_names svc note extracted sim similar now lat)).mpr
    (process_establishes _ now extracted _ svc.type_counts hws ent hmem)

/-- C5 (amended): ingesting the same note content twice always creates two
distinct note nodes (note creation is never deduplicated), and entity
resolution reuses an existing node found by comparing the lowercased stored
name against the normalized (lowercased, whitespace-collapsed) extracted
text, bumping its access count instead of creating a new node. When every
extracted entity's lowercased surface text equals its normalized form (no
collapsible whitespace), the second ingestion therefore creates exactly one
new node — the note node — and no entity node; with collapsible whitespace
in the surface text the lookup can miss and a duplicate entity node is
created (see the counterexample). -/
theorem add_note_twice_dedup (svc : GraphService) (note : Note)
    (extracted : List ExtractedEntity) (sim1 sim2 : String → String → ℚ)
    (similar1 similar2 : List (Nat × ℚ)) (now1 now2 : Nat) (lat1 lat2 : ℚ)
    (hws : ∀ ent ∈ extracted, sqlLower ent.text = normalize_entity_text ent.text) :
    (add_note svc note extracted sim1 similar1 now1 lat1).1.1.entity_type = "note" ∧
    (add_note (add_note svc note extracted sim1 similar1 now1 lat1).2 note extracted sim2
        similar2 now2 lat2).1.1.entity_type = "note" ∧
    (add_note (add_note svc note extracted sim1 similar1 now1 lat1).2 note extracted sim2
        similar2 now2 lat2).1.1.id ≠
      (add_note svc note extracted sim1 similar1 now1 lat1).1.1.id ∧
    (add_note (add_note svc note extracted sim1 similar1 now1 lat1).2 note extracted sim2
        similar2 now2 lat2).2.db.nodes.length =
      (add_note svc note extracted sim1 similar1 now1 lat1).2.db.nodes.length + 1 ∧
    (∀ (db : Database) (tc : List (String × Nat)) (ent : ExtractedEntity) (now : Nat)
        (m : DbNode),
      find_node_by_name db (normalize_entity_text ent.text) none = some m →
      find_or_create_entity db tc ent now = (m, update_node_access db m.id now, tc)) := by
  refine ⟨rfl, rfl, ?_, ?_, ?_⟩
  · have h1 : (add_note svc note extracted sim1 similar1 now1 lat1).1.1.id =
        svc.db.next_id := rfl
    have h2 : (add_note (add_note svc note extracted sim1 similar1 now1 lat1).2 note
        extracted sim2 similar2 now2 lat2).1.1.id =
        (add_note svc note extracted sim1 similar1 now1 lat1).2.db.next_id := rfl
    have h3 := add_note_next_ge svc note extracted sim1 similar1 now1 lat1
    rw [h1, h2]
    omega
  · exact add_note_new_nodes _ note extracted sim2 similar2 now2 lat2
      (add_note_np svc note extracted sim1 similar1 now1 lat1 hws)
  · intro db tc ent now m h
    simp [find_or_create_entity, h]

/-- The extracted entity of the C5 counterexample: its surface text "a  b"
contains a double space, so lowercasing it ("a  b") differs from its
normalization ("a b"). -/
def ws_ent : ExtractedEntity :=
  { text := "a  b", label := "person", start := 0, end_ := 4, score := 1 }

def ws_note : Note := { content := "x", title := some "T", tags := [] }

def ws_svc1 : GraphService :=
  (add_note { db := init_db 0, type_counts := [] } ws_note [ws_ent] (fun _ _ => 0) [] 0
    0).2

def ws_svc2 : GraphService :=
  (add_note ws_svc1 ws_note [ws_ent] (fun _ _ => 0) [] 1 0).2

/-- C5 counterexample to the claim as stated: nodes are created with the raw
surface text but looked up by the normalized text under `LOWER(...)`
comparison, so ingesting the same note twice with entity surface text
"a  b" (double space) creates two distinct non-note entity nodes whose
names normalize to the same "a b" — "at most one entity node per distinct
normalized entity name" is false on the code. -/
theorem entity_dedup_counterexample :
    (ws_svc2.db.nodes.filter
      (fun n => n.entity_type != "note" && (normalize_entity_text n.name == "a b"))).length
      = 2 := by
  with_unfolding_all decide

theorem add_note_twice_dedup_witness :
    (add_note { db := init_db 0, type_counts := [] }
        { content := "x", title := some "T", tags := [] }
        [{ text := "ab", label := "person", start := 0, end_ := 2, score := 1 }]
        (fun _ _ => 0) [] 0 0).1.1.entity_type = "note" ∧
    (add_note (add_note { db := init_db 0, type_counts := [] }
        { content := "x", title := some "T", tags := [] }
        [{ text := "ab", label := "person", start := 0, end_ := 2, score := 1 }]
        (fun _ _ => 0) [] 0 0).2
        { content := "x", title := some "T", tags := [] }
        [{ text := "ab", label := "person", start := 0, end_ := 2, score := 1 }]
        (fun _ _ => 0) [] 1 0).1.1.entity_type = "note" ∧
    (add_note (add_note { db := init_db 0, type_counts := [] }
        { content := "x", title := some "T", tags := [] }
        [{ text := "ab", label := "person", start := 0, end_ := 2, score := 1 }]
        (fun _ _ => 0) [] 0 0).2
        { content := "x", title := some "T", tags := [] }
        [{ text := "ab", label := "person", start := 0, end_ := 2, score := 1 }]
        (fun _ _ => 0) [] 1 0).1.1.id ≠
      (add_note { db := init_db 0, type_counts := [] }
        { content := "x", title := some "T", tags := [] }
        [{ text := "ab", label := "person", start := 0, end_ := 2, score := 1 }]
        (fun _ _ => 0) [] 0 0).1.1.id ∧
    (add_note (add_note { db := init_db 0, type_counts := [] }
        { content := "x", title := some "T", tags := [] }
        [{ text := "ab", label := "person", start := 0, end_ := 2, score := 1 }]
        (fun _ _ => 0) [] 0 0).2
        { content := "x", title := some "T", tags := [] }
        [{ text := "ab", label := "person", start := 0, end_ := 2, score := 1 }]
        (fun _ _ => 0) [] 1 0).2.db.nodes.length =
      (add_note { db := init_db 0, type_counts := [] }
        { content := "x", title := some "T", tags := [] }
        [{ text := "ab", label := "person", start := 0, end_ := 2, score := 1 }]
        (fun _ _ => 0) [] 0 0).2.db.nodes.length + 1 ∧
    (∀ (db : Database) (tc : List (String × Nat)) (ent : ExtractedEntity) (now : Nat)
        (m : DbNode),
      find_node_by_name db (normalize_entity_text ent.text) none = some m →
      find_or_create_entity db tc ent now = (m, update_node_access db m.id now, tc)) :=
  add_note_twice_dedup { db := init_db 0, type_counts := [] }
    { content := "x", title := some "T", tags := [] }
    [{ text := "ab", label := "person", start := 0, end_ := 2, score := 1 }]
    (fun _ _ => 0) (fun _ _ => 0) [] [] 0 1 0 0 (by with_unfolding_all decide)

end Tristero












